import Mathlib

/-!
Verification of the personal-assistant data model and service layer.

The definitions below are a shallow embedding of the Python sources:
`src/core/validators.py`, `src/config/constants.py`, `src/core/models/contacts.py`,
`src/core/models/notes.py`, `src/core/utils/dates.py`,
`src/services/contacts_service.py`, `src/services/notes_service.py`.

Modelling conventions:
* Python strings are Lean `String`s; the embedding treats them as sequences of
  unicode scalar values.  `str.strip` is modelled by `pyStrip` (ASCII whitespace,
  matching the characters relevant to this code base), `str.lower` by mapping
  `Char.toLower` (identical to CPython lowering on ASCII, the alphabet the
  validators accept), and `needle in hay` by `strContains`.
* `uuid4` identifiers are modelled as abstract `Nat` ids; operations that mint a
  fresh id receive it as an explicit argument.
* `datetime.date` / the date part of `datetime.datetime` is `PyDate`;
  `date.toordinal` is `PyDate.toordinal` (proleptic Gregorian ordinal, the
  exact quantity CPython uses for date subtraction), and Python date
  comparison is `PyDate.lt` (chronological, i.e. lexicographic on y/m/d).
* Raising an exception is modelled with `Except`: a `.error` result is the
  raised exception, and the state components returned alongside reflect
  exactly the mutations performed before the raise (Python mutates in place).
-/

/-- Characters removed by `str.strip()` (ASCII whitespace, as used by the repo data). -/
def isSpaceChar (c : Char) : Bool :=
  c == ' ' || c == '\t' || c == '\n' || c == '\r'

/-- Characters matched by the regex class `\s` and stripped by `normalize_phone`
and `is_phone` (`[\s\-\(\)\+]` without the punctuation, ASCII part). -/
def isPhoneSep (c : Char) : Bool :=
  isSpaceChar c || c == '-' || c == '(' || c == ')' || c == '+'

/-- Characters matched by the regex class `\d` (ASCII digits, the only digits in
the repo data). -/
def isDigitChar (c : Char) : Bool :=
  48 ≤ c.toNat && c.toNat ≤ 57

/-- Model of `str.strip()` on a character list: drop leading and trailing
whitespace. -/
def stripList (l : List Char) : List Char :=
  ((l.dropWhile isSpaceChar).reverse.dropWhile isSpaceChar).reverse

/-- Model of `str.strip()`. -/
def pyStrip (s : String) : String :=
  ⟨stripList s.toList⟩

/-- Model of `str.lower()` (CPython ASCII lowering; `Char.toLower` is exactly
the CPython mapping on the ASCII range, which is the alphabet this code
manipulates). -/
def pyLower (s : String) : String :=
  ⟨s.toList.map Char.toLower⟩

/-- Model of Python truthiness for an optional-string argument: `None` and the
empty string are falsy. -/
def pyTruthy (o : Option String) : Bool :=
  match o with
  | none => false
  | some s => !s.isEmpty

/-- Tests whether the second list is an initial segment of the first. -/
def leadsWith : List Char → List Char → Bool
  | [], _ => true
  | _ :: _, [] => false
  | a :: as, b :: bs => a == b && leadsWith as bs

/-- Tests whether `needle` occurs contiguously inside `hay`. -/
def hasSub (hay needle : List Char) : Bool :=
  leadsWith needle hay ||
    (match hay with
     | [] => false
     | _ :: t => hasSub t needle)

/-- Model of the Python expression `needle in hay` on strings. -/
def strContains (hay needle : String) : Bool :=
  hasSub hay.toList needle.toList

/-! ## Dates (`datetime.date`) -/

/-- Model of a `datetime.date` (or the date part of a `datetime.datetime`). -/
structure PyDate where
  year : Nat
  month : Nat
  day : Nat
deriving DecidableEq, Repr

/-- Gregorian leap-year test, as in `calendar.isleap` / `datetime`. -/
def isLeap (y : Nat) : Bool :=
  (y % 4 == 0 && y % 100 != 0) || y % 400 == 0

/-- Number of days in a month, as validated by the `datetime.date` constructor. -/
def daysInMonth (y m : Nat) : Nat :=
  if m = 2 then (if isLeap y then 29 else 28)
  else if m = 4 ∨ m = 6 ∨ m = 9 ∨ m = 11 then 30
  else 31

/-- Validity of a `PyDate`, as enforced by the `datetime.date` constructor
(`MINYEAR = 1`, `MAXYEAR = 9999`). -/
def PyDate.valid (d : PyDate) : Bool :=
  1 ≤ d.year && d.year ≤ 9999 && 1 ≤ d.month && d.month ≤ 12 &&
    1 ≤ d.day && d.day ≤ daysInMonth d.year d.month

/-- Days before the first of month `m` in year `y`. -/
def daysBeforeMonth (y m : Nat) : Nat :=
  (if m ≤ 1 then 0
   else if m = 2 then 31
   else if m = 3 then 59
   else if m = 4 then 90
   else if m = 5 then 120
   else if m = 6 then 151
   else if m = 7 then 181
   else if m = 8 then 212
   else if m = 9 then 243
   else if m = 10 then 273
   else if m = 11 then 304
   else 334) +
  (if 3 ≤ m ∧ isLeap y then 1 else 0)

/-- Model of `date.toordinal()`: day number in the proleptic Gregorian calendar
with `0001-01-01` mapped to 1.  CPython subtracts ordinals to implement date
subtraction, so `(a - b).days` is `(a.toordinal : Int) - b.toordinal`. -/
def PyDate.toordinal (d : PyDate) : Nat :=
  let p := d.year - 1
  365 * p + p / 4 - p / 100 + p / 400 + daysBeforeMonth d.year d.month + d.day

/-- Model of Python date comparison `a < b` (chronological order, which on the
y/m/d representation is lexicographic). -/
def PyDate.lt (a b : PyDate) : Bool :=
  a.year < b.year ||
    (a.year == b.year &&
      (a.month < b.month || (a.month == b.month && a.day < b.day)))

/-- Model of `d.replace(year := y)`: succeeds exactly when the month/day pair is
valid in the new year, which for a date that was valid in its own year can only
fail for Feb 29 in a non-leap year. -/
def PyDate.replaceYear (d : PyDate) (y : Nat) : Option PyDate :=
  if d.day ≤ daysInMonth y d.month then some ⟨y, d.month, d.day⟩ else none

/-! ## Errors (`src/core/errors.py` plus built-in Python exceptions) -/

/-- Exceptions raised by the embedded code: the repo error classes
(`InvalidEmailError`, `InvalidPhoneError`, `InvalidBirthdayError`,
`ContactNotFoundError`, `DuplicateContactError`) together with the built-in
`ValueError` and `AttributeError`. -/
inductive PAError where
  | invalidEmail (value : String)
  | invalidPhone (value : String)
  | invalidBirthday (value : String) (message : String)
  | contactNotFound (id : Nat)
  | duplicateContact (name : String)
  | valueError (message : String)
  | attributeError (message : String)
deriving DecidableEq, Repr

/-! ## Validators (`src/core/validators.py`) and the email pattern
(`src/config/constants.py`) -/

/-- Characters of the regex class `[a-zA-Z0-9._%+-]` (local part of
`email_pattern`). -/
def localChar (c : Char) : Bool :=
  c.isAlphanum || c == '.' || c == '_' || c == '%' || c == '+' || c == '-'

/-- Characters of the regex class `[a-zA-Z0-9.-]` (domain part of
`email_pattern`). -/
def domainChar (c : Char) : Bool :=
  c.isAlphanum || c == '.' || c == '-'

/-- Match of the anchored regex fragment `[a-zA-Z0-9.-]+\.[a-zA-Z]{2,}` against
the text after the `@`.  A decomposition `p ++ "." ++ t` with `t` all letters
and `|t| >= 2` forces the split dot to be the last dot of the text (no dot is a
letter), so matching checks the maximal letter suffix and the character before
it. -/
def domainTailMatch (r : List Char) : Bool :=
  let rev := r.reverse
  let tld := rev.takeWhile Char.isAlpha
  match rev.dropWhile Char.isAlpha with
  | [] => false
  | d :: p => d == '.' && !p.isEmpty && 2 ≤ tld.length && p.all domainChar

/-- Match of `email_pattern = ^[a-zA-Z0-9._%+-]+@[a-zA-Z0-9.-]+\.[a-zA-Z]{2,}$`
(`src/config/constants.py` line 28).  Neither character class contains `@`, so
a match decomposes uniquely at the first `@`. -/
def emailPatternMatch (s : String) : Bool :=
  let cs := s.toList
  let loc := cs.takeWhile (fun c => c != '@')
  match cs.dropWhile (fun c => c != '@') with
  | [] => false
  | _ :: r => !loc.isEmpty && loc.all localChar && domainTailMatch r

/-- Model of `is_email` (`src/core/validators.py` lines 17-39): raises
`InvalidEmailError` on the empty string or a pattern mismatch of the trimmed
value, returns `True` otherwise. -/
def is_email (value : String) : Except PAError Bool :=
  if value.isEmpty then .error (.invalidEmail value)
  else if !emailPatternMatch (pyStrip value) then .error (.invalidEmail value)
  else .ok true

/-- Model of the cleaning step shared by `is_phone` and `normalize_phone`:
`re.sub(r"[\s\-\(\)\+]", "", value.strip())`. -/
def cleanPhone (value : String) : String :=
  ⟨(pyStrip value).toList.filter (fun c => !isPhoneSep c)⟩

/-- Model of `is_phone` (`src/core/validators.py` lines 42-71): strips
formatting characters and requires exactly ten digits (`^\d{10}$`). -/
def is_phone (value : String) : Except PAError Bool :=
  if value.isEmpty then .error (.invalidPhone value)
  else
    let cleaned := cleanPhone value
    if cleaned.toList.length = 10 ∧ cleaned.toList.all isDigitChar then .ok true
    else .error (.invalidPhone value)

/-- Model of `normalize_phone` (`src/core/validators.py`): keep only the
non-formatting characters of the stripped value. -/
def normalize_phone (value : String) : String :=
  cleanPhone value

/-! ## Number parsing and formatting primitives used by `strptime`/`strftime` -/

/-- Decimal value of a digit list (most significant first), as accumulated from
a regex group of digit characters. -/
def digitsToNat (l : List Char) : Nat :=
  l.foldl (fun n c => n * 10 + (c.toNat - 48)) 0

/-- Model of one numeric field of CPython `_strptime`: the field must be a run
of `minLen` to `maxLen` digits whose value lies in `[lo, hi]` (the compiled
regexes for `%d`, `%m`, `%Y` have exactly this shape). -/
def parseNumField (s : List Char) (minLen maxLen lo hi : Nat) : Option Nat :=
  if minLen ≤ s.length ∧ s.length ≤ maxLen ∧ s.all isDigitChar then
    let v := digitsToNat s
    if lo ≤ v ∧ v ≤ hi then some v else none
  else none

/-- Splits a character list at every occurrence of `sep`, keeping empty pieces,
as `str.split(sep)` does. -/
def splitOnSep (sep : Char) : List Char → List (List Char)
  | [] => [[]]
  | c :: cs =>
    let r := splitOnSep sep cs
    if c == sep then [] :: r
    else
      match r with
      | [] => [[c]]
      | h :: t => (c :: h) :: t

/-- Digit character of a value below ten. -/
def digitChar (n : Nat) : Char :=
  Char.ofNat (48 + n % 10)

/-- Decimal digits of `n`, least significant first. -/
def natDigitsRev (n : Nat) : List Char :=
  if h : n < 10 then [digitChar n]
  else digitChar (n % 10) :: natDigitsRev (n / 10)
decreasing_by exact Nat.div_lt_self (by omega) (by omega)

/-- Decimal rendering of `n`, as printed by `strftime` for an unpadded field
such as glibc `%Y`. -/
def natToChars (n : Nat) : List Char :=
  (natDigitsRev n).reverse

/-- Two-digit zero-padded rendering, as printed by `strftime` for `%d` and
`%m`. -/
def pad2 (n : Nat) : List Char :=
  if n < 10 then '0' :: natToChars n else natToChars n

/-! ## `strptime` with the four formats the repo uses -/

/-- Builds the date once the three numeric fields parsed, performing the
`datetime` constructor checks (`MINYEAR <= year`, day fits the month; the month
range is already enforced by the `%m` field regex). -/
def mkParsedDate (y m d : Nat) : Option PyDate :=
  if 1 ≤ y ∧ d ≤ daysInMonth y m then some ⟨y, m, d⟩ else none

/-- Model of `datetime.strptime(s, "%d.%m.%Y")`: CPython compiles the format to
an anchored regex, so the string must be exactly three dot-separated fields;
`%d` is one or two digits valued 1-31, `%m` one or two digits valued 1-12, `%Y`
exactly four digits. -/
def strptimeDMY (s : String) : Option PyDate :=
  match splitOnSep '.' s.toList with
  | [ds, ms, ys] =>
    match parseNumField ds 1 2 1 31, parseNumField ms 1 2 1 12,
        parseNumField ys 4 4 0 9999 with
    | some d, some m, some y => mkParsedDate y m d
    | _, _, _ => none
  | _ => none

/-- Model of `datetime.strptime(s, "%Y-%m-%d")`. -/
def strptimeYMD (s : String) : Option PyDate :=
  match splitOnSep '-' s.toList with
  | [ys, ms, ds] =>
    match parseNumField ys 4 4 0 9999, parseNumField ms 1 2 1 12,
        parseNumField ds 1 2 1 31 with
    | some y, some m, some d => mkParsedDate y m d
    | _, _, _ => none
  | _ => none

/-- Model of `datetime.strptime(s, "%d/%m/%Y")`. -/
def strptimeDMYSlash (s : String) : Option PyDate :=
  match splitOnSep '/' s.toList with
  | [ds, ms, ys] =>
    match parseNumField ds 1 2 1 31, parseNumField ms 1 2 1 12,
        parseNumField ys 4 4 0 9999 with
    | some d, some m, some y => mkParsedDate y m d
    | _, _, _ => none
  | _ => none

/-- Model of `datetime.strptime(s, "%m/%d/%Y")`. -/
def strptimeMDYSlash (s : String) : Option PyDate :=
  match splitOnSep '/' s.toList with
  | [ms, ds, ys] =>
    match parseNumField ms 1 2 1 12, parseNumField ds 1 2 1 31,
        parseNumField ys 4 4 0 9999 with
    | some m, some d, some y => mkParsedDate y m d
    | _, _, _ => none
  | _ => none

/-- Model of `strftime("%d.%m.%Y")` (`default_date_format`): zero-padded day
and month, unpadded year (the repo only ever formats four-digit years, for
which padding is irrelevant; `natToChars` renders smaller years unpadded as
glibc does). -/
def formatDMY (d : PyDate) : String :=
  ⟨pad2 d.day ++ '.' :: pad2 d.month ++ '.' :: natToChars d.year⟩

/-- Model of `parse_birthday` (`src/core/validators.py` lines 72-137).  The
current moment `datetime.now()` is abstracted by its date `today`: a parsed
midnight datetime compares `> now` exactly when its date is strictly after
today, and `< datetime(year - 150, 1, 1)` exactly when its date is before
Jan 1 of `today.year - 150`. -/
def parse_birthday (today : PyDate) (value : String) : Except PAError PyDate :=
  if value.isEmpty then
    .error (.invalidBirthday value "Birthday must be a non-empty string")
  else
    let v := pyStrip value
    let parsed :=
      match strptimeDMY v with
      | some d => some d
      | none =>
        match strptimeYMD v with
        | some d => some d
        | none =>
          match strptimeDMYSlash v with
          | some d => some d
          | none => strptimeMDYSlash v
    match parsed with
    | none =>
      .error (.invalidBirthday value
        "Could not parse date. Supported formats: DD.MM.YYYY, YYYY-MM-DD, DD/MM/YYYY, MM/DD/YYYY")
    | some d =>
      if PyDate.lt today d then
        .error (.invalidBirthday value "Birthday cannot be in the future")
      else if PyDate.lt d ⟨today.year - 150, 1, 1⟩ then
        .error (.invalidBirthday value "Birthday cannot be more than 150 years ago")
      else .ok d

/-! ## Field classes (`src/core/models/contacts.py`) -/

/-- Field wrapper for the contact name. -/
structure Name where
  value : String
deriving DecidableEq, Repr

/-- Model of `Name.__init__`: rejects an absent or whitespace-only name, stores
the stripped value.  The argument is optional because `ContactsService.add`
passes `contact_data.get("name")`, which may be `None`. -/
def Name.init (value : Option String) : Except PAError Name :=
  match value with
  | none => .error (.valueError "Name cannot be empty")
  | some s =>
    if (pyStrip s).isEmpty then .error (.valueError "Name cannot be empty")
    else .ok ⟨pyStrip s⟩

/-- Field wrapper for the phone number. -/
structure Phone where
  value : String
deriving DecidableEq, Repr

/-- Model of `Phone.__init__`: rejects a whitespace-only value, validates via
`is_phone(value.strip())`, stores `normalize_phone(value)`. -/
def Phone.init (value : String) : Except PAError Phone :=
  if (pyStrip value).isEmpty then .error (.valueError "Phone number cannot be empty")
  else
    match is_phone (pyStrip value) with
    | .error e => .error e
    | .ok _ => .ok ⟨normalize_phone value⟩

/-- Field wrapper for the email address. -/
structure Email where
  value : String
deriving DecidableEq, Repr

/-- Model of `Email.__init__`: rejects a whitespace-only value, validates via
`is_email(value.strip())`, stores `value.strip().lower()`. -/
def Email.init (value : String) : Except PAError Email :=
  if (pyStrip value).isEmpty then .error (.valueError "Email cannot be empty")
  else
    match is_email (pyStrip value) with
    | .error e => .error e
    | .ok _ => .ok ⟨pyLower (pyStrip value)⟩

/-- Field wrapper for the address. -/
structure Address where
  value : String
deriving DecidableEq, Repr

/-- Model of `Address.__init__`: stores the stripped value (empty when the
argument is falsy). -/
def Address.init (value : String) : Address :=
  if value.isEmpty then ⟨""⟩ else ⟨pyStrip value⟩

/-- Contents of the dynamically-typed `Birthday.value` attribute: `None`, a
parsed `datetime`, or a raw string written directly by `ContactsService.patch`
(which assigns `updates["birthday"].strip()` without parsing). -/
inductive BirthdayValue where
  | absent
  | date (d : PyDate)
  | raw (s : String)
deriving DecidableEq, Repr

/-- Field wrapper for the birthday. -/
structure Birthday where
  value : BirthdayValue
deriving DecidableEq, Repr

/-- Model of `Birthday.__init__` on a truthy string (`Contact.__init__` only
constructs a `Birthday` for a truthy argument): dispatches on whether the raw
value contains a dot or a dash, parses the stripped value with the matching
format, and converts any parse failure into the single `ValueError` message
raised by the `except` clause. -/
def Birthday.init (value : String) : Except PAError Birthday :=
  if value.toList.contains '.' then
    match strptimeDMY (pyStrip value) with
    | some d => .ok ⟨.date d⟩
    | none => .error (.valueError "Invalid birthday format. Use DD.MM.YYYY or YYYY-MM-DD")
  else if value.toList.contains '-' then
    match strptimeYMD (pyStrip value) with
    | some d => .ok ⟨.date d⟩
    | none => .error (.valueError "Invalid birthday format. Use DD.MM.YYYY or YYYY-MM-DD")
  else .error (.valueError "Invalid birthday format. Use DD.MM.YYYY or YYYY-MM-DD")

/-- Model of `Birthday.__str__`: the empty string for an unset value, the
formatted date otherwise.  Calling `strftime` on a raw string written by
`patch` raises `AttributeError`, hence the `Except`. -/
def Birthday.str (b : Birthday) : Except PAError String :=
  match b.value with
  | .absent => .ok ""
  | .date d => .ok (formatDMY d)
  | .raw s => if s.isEmpty then .ok "" else .error (.attributeError "str object has no attribute strftime")

/-! ## Contact model (`src/core/models/contacts.py`) -/

/-- Model of a `Contact` instance. -/
structure Contact where
  id : Nat
  name : Name
  phone : Option Phone
  email : Option Email
  address : Option Address
  birthday : Option Birthday
deriving DecidableEq, Repr

/-- Model of the expression `Phone(phone) if phone else None` in
`Contact.__init__`. -/
def phoneField (phone : Option String) : Except PAError (Option Phone) :=
  if pyTruthy phone then
    match phone with
    | some s => (Phone.init s).map some
    | none => pure none
  else pure none

/-- Model of the expression `Email(email) if email else None`. -/
def emailField (email : Option String) : Except PAError (Option Email) :=
  if pyTruthy email then
    match email with
    | some s => (Email.init s).map some
    | none => pure none
  else pure none

/-- Model of the expression `Address(address) if address else None`
(`Address.__init__` cannot raise). -/
def addressField (address : Option String) : Option Address :=
  if pyTruthy address then
    match address with
    | some s => some (Address.init s)
    | none => none
  else none

/-- Model of the expression `Birthday(birthday) if birthday else None`. -/
def birthdayField (birthday : Option String) : Except PAError (Option Birthday) :=
  if pyTruthy birthday then
    match birthday with
    | some s => (Birthday.init s).map some
    | none => pure none
  else pure none

/-- Model of `Contact.__init__`: the name is validated, each optional field is
constructed only when its argument is truthy, and field constructors run in
source order with the first raised exception propagating. -/
def Contact.init (cid : Nat) (name phone email address birthday : Option String) :
    Except PAError Contact := do
  let n ← Name.init name
  let p ← phoneField phone
  let e ← emailField email
  let a := addressField address
  let b ← birthdayField birthday
  pure ⟨cid, n, p, e, a, b⟩

/-- Dictionary form produced by `Contact.to_dict` (the id is kept abstract; its
string round trip through `UUID(str(id))` is the identity). -/
structure ContactDict where
  id : Nat
  name : String
  phone : Option String
  email : Option String
  address : Option String
  birthday : Option String
deriving DecidableEq, Repr

/-- Model of `Contact.to_dict`: strings for the present fields, `None` for the
absent ones.  Stringifying a `Birthday` can raise (see `Birthday.str`), hence
the `Except`. -/
def Contact.to_dict (c : Contact) : Except PAError ContactDict := do
  let b ← match c.birthday with
    | some bd => (Birthday.str bd).map some
    | none => pure none
  pure
    { id := c.id
      name := c.name.value
      phone := c.phone.map Phone.value
      email := c.email.map Email.value
      address := c.address.map Address.value
      birthday := b }

/-- Model of `Contact.from_dict`: re-runs `Contact.__init__` on the stored
strings, preserving the id. -/
def Contact.from_dict (d : ContactDict) : Except PAError Contact :=
  Contact.init d.id (some d.name) d.phone d.email d.address d.birthday

/-! ## Note model (`src/core/models/notes.py`) -/

/-- Model of the `Text` wrapper. -/
structure NoteText where
  content : String
deriving DecidableEq, Repr

/-- Model of `Text.__init__`: rejects whitespace-only content, stores the
stripped value. -/
def NoteText.init (content : String) : Except PAError NoteText :=
  if (pyStrip content).isEmpty then .error (.valueError "Text cannot be empty")
  else .ok ⟨pyStrip content⟩

/-- Model of the `Tag` wrapper: stores the stripped name (which may be empty;
`Tag.__init__` does not reject the empty string). -/
structure NoteTag where
  name : String
deriving DecidableEq, Repr

/-- Model of `Tag.__init__`. -/
def NoteTag.init (name : String) : NoteTag :=
  ⟨pyStrip name⟩

/-- Model of a `Note` instance. -/
structure Note where
  id : Nat
  text : NoteText
  tags : List NoteTag
deriving DecidableEq, Repr

/-- Model of `Note.__init__`: `tags or []` collapses an absent or empty tag
list to the empty list. -/
def Note.init (nid : Nat) (text : NoteText) (tags : Option (List NoteTag)) : Note :=
  ⟨nid, text, match tags with | none => [] | some l => l⟩

/-- Dictionary form produced by `Note.to_dict`. -/
structure NoteDict where
  id : Nat
  text : String
  tags : List String
deriving DecidableEq, Repr

/-- Model of `Note.to_dict`. -/
def Note.to_dict (n : Note) : NoteDict :=
  { id := n.id, text := n.text.content, tags := n.tags.map NoteTag.name }

/-- Model of `Note.from_dict`: rebuilds `Text` and the `Tag` list from the
stored strings. -/
def Note.from_dict (d : NoteDict) : Except PAError Note :=
  match NoteText.init d.text with
  | .error e => .error e
  | .ok t => .ok (Note.init d.id t (some (d.tags.map NoteTag.init)))

/-! ## Birthday lookahead (`src/core/utils/dates.py`,
`src/services/birthday_service.py`) -/

/-- Model of `is_birthday_coming(birthday, days_ahead)` with `date.today()`
made an explicit argument.  The `try/except ValueError` around
`birthday.replace(year=...)` becomes a match on `PyDate.replaceYear`, with the
`except` branch substituting Feb 28 of the attempted year. -/
def is_birthday_coming (birthday today : PyDate) (days_ahead : Int) : Bool :=
  let thisYear :=
    match birthday.replaceYear today.year with
    | some d => d
    | none => ⟨today.year, 2, 28⟩
  let next :=
    if PyDate.lt thisYear today then
      match birthday.replaceYear (today.year + 1) with
      | some d => d
      | none => ⟨today.year + 1, 2, 28⟩
    else thisYear
  let diff : Int := (next.toordinal : Int) - (today.toordinal : Int)
  decide (0 ≤ diff) && decide (diff ≤ days_ahead)

/-- Follows the spec wording for the birthday lookahead: the occurrence of the
birthday's month/day in a target year, substituting Feb 28 for a Feb 29
birthday when the target year is not a leap year. -/
def occurrenceInYear (b : PyDate) (y : Nat) : PyDate :=
  if b.month = 2 ∧ b.day = 29 ∧ isLeap y = false then ⟨y, 2, 28⟩
  else ⟨y, b.month, b.day⟩

/-- Follows the spec wording: the next occurrence of the birthday's month/day
on or after today — the occurrence in the current year, advanced to the next
year when it has already passed. -/
def nextOccurrence (b today : PyDate) : PyDate :=
  let c := occurrenceInYear b today.year
  if PyDate.lt c today then occurrenceInYear b (today.year + 1) else c

/-! ## Contacts service (`src/services/contacts_service.py`).  The service
state is its in-memory contact list; persistence (`_save_contacts`) is
reported as a boolean "saved" flag where an operation's claim mentions it. -/

/-- Model of `ContactsService._find_by_name`: first contact whose stored name
equals the argument case-insensitively. -/
def findByName (contacts : List Contact) (name : String) : Option Contact :=
  contacts.find? (fun c => pyLower c.name.value == pyLower name)

/-- Model of `ContactsService._find_by_id`. -/
def findById (contacts : List Contact) (cid : Nat) : Option Contact :=
  contacts.find? (fun c => c.id == cid)

/-- Model of `ContactsService.add`: duplicate check on the stripped name, then
contact construction (where all field validation happens), then append.  A
raised error leaves the collection untouched (the raise precedes the append).
The fresh `uuid4` is the explicit `freshId`. -/
def contactsAdd (contacts : List Contact) (freshId : Nat)
    (name phone email address birthday : Option String) :
    Except PAError (List Contact × Contact) := do
  let nm := pyStrip (match name with | some s => s | none => "")
  match findByName contacts nm with
  | some _ => .error (.duplicateContact nm)
  | none =>
    let c ← Contact.init freshId name phone email address birthday
    pure (contacts ++ [c], c)

/-- Field updates passed to `ContactsService.patch`: `none` means the key is
absent from the `updates` dict, `some s` that it is present with string value
`s` (a present `None` value behaves like `""` in every branch that does not
crash on it, and the claims below never need that corner). -/
structure PatchUpdates where
  name : Option String := none
  phone : Option String := none
  email : Option String := none
  address : Option String := none
  birthday : Option String := none
deriving DecidableEq, Repr

/-- Model of the field-assignment section of `ContactsService.patch` (lines
196-215): each supplied field is written in source order through the wrapper's
`.value` attribute with no re-validation; a truthy phone/email value or any
address/birthday update dereferences the wrapper object and raises
`AttributeError` when that field is currently `None`.  An error carries the
partially mutated contact, since Python has already applied the earlier
assignments in place. -/
def patchFields (c : Contact) (u : PatchUpdates) : Except (PAError × Contact) Contact := do
  let c ← match u.name with
    | some v => pure { c with name := ⟨pyStrip v⟩ }
    | none => pure c
  let c ← match u.phone with
    | some v =>
      if !v.isEmpty then
        match c.phone with
        | some _ => pure { c with phone := some ⟨pyStrip v⟩ }
        | none => .error (.attributeError "NoneType object has no attribute value", c)
      else pure { c with phone := none }
    | none => pure c
  let c ← match u.email with
    | some v =>
      if !v.isEmpty then
        match c.email with
        | some _ => pure { c with email := some ⟨pyStrip v⟩ }
        | none => .error (.attributeError "NoneType object has no attribute value", c)
      else pure { c with email := none }
    | none => pure c
  let c ← match u.address with
    | some v =>
      match c.address with
      | some _ => pure { c with address := some ⟨pyStrip v⟩ }
      | none => .error (.attributeError "NoneType object has no attribute value", c)
    | none => pure c
  let c ← match u.birthday with
    | some v =>
      match c.birthday with
      | some _ =>
        if !v.isEmpty then pure { c with birthday := some ⟨.raw (pyStrip v)⟩ }
        else pure { c with birthday := some ⟨.absent⟩ }
      | none => .error (.attributeError "NoneType object has no attribute value", c)
    | none => pure c
  pure c

/-- Replaces the first contact carrying `cid`, mirroring the in-place mutation
of the object returned by `_find_by_id`. -/
def replaceFirstById (contacts : List Contact) (cid : Nat) (c : Contact) : List Contact :=
  match contacts with
  | [] => []
  | x :: xs => if x.id = cid then c :: xs else x :: replaceFirstById xs cid c

/-- Model of `ContactsService.patch`.  Returns the operation result, the
collection after the call, and whether `_save_contacts` ran. -/
def contactsPatch (contacts : List Contact) (cid : Nat) (u : PatchUpdates) :
    Except PAError Contact × List Contact × Bool :=
  match findById contacts cid with
  | none => (.error (.contactNotFound cid), contacts, false)
  | some c =>
    let dupName :=
      match u.name with
      | some nv =>
        match findByName contacts (pyStrip nv) with
        | some ex => if ex.id = cid then none else some (pyStrip nv)
        | none => none
      | none => none
    match dupName with
    | some nv => (.error (.duplicateContact nv), contacts, false)
    | none =>
      match patchFields c u with
      | .error (e, partial_c) => (.error e, replaceFirstById contacts cid partial_c, false)
      | .ok c2 => (.ok c2, replaceFirstById contacts cid c2, true)

/-- Model of the per-contact query branch of `ContactsService.search`: the
lower-cased query is sought in the name and in each present optional field. -/
def matchesQuery (c : Contact) (q : String) : Bool :=
  let ql := pyLower q
  strContains (pyLower c.name.value) ql ||
    (match c.phone with | some p => strContains (pyLower p.value) ql | none => false) ||
    (match c.email with | some e => strContains (pyLower e.value) ql | none => false) ||
    (match c.address with | some a => strContains (pyLower a.value) ql | none => false)

/-- Specific-criteria test of `ContactsService.search` for the name filter:
`match` is falsified when the filter is truthy and the lower-cased filter is
not a substring of the lower-cased name. -/
def nameFilterFails (name : Option String) (c : Contact) : Bool :=
  match name with
  | some f => !f.isEmpty && !strContains (pyLower c.name.value) (pyLower f)
  | none => false

/-- Specific-criteria test for the phone filter: only a contact that has a
phone can be falsified, and the filter string is sought verbatim in the
lower-cased stored phone (the code lowers only the stored side). -/
def phoneFilterFails (phone : Option String) (c : Contact) : Bool :=
  match phone, c.phone with
  | some f, some p => !f.isEmpty && !strContains (pyLower p.value) f
  | _, _ => false

/-- Specific-criteria test for the email filter: only a contact that has an
email can be falsified. -/
def emailFilterFails (email : Option String) (c : Contact) : Bool :=
  match email, c.email with
  | some f, some e => !f.isEmpty && !strContains (pyLower e.value) (pyLower f)
  | _, _ => false

/-- Truthiness of `name or phone or email`, the guard for appending a
specific-criteria match. -/
def anyFilterSupplied (name phone email : Option String) : Bool :=
  pyTruthy name || pyTruthy phone || pyTruthy email

/-- Per-contact decision of `ContactsService.search`: a truthy query that
matches appends immediately (`continue`); otherwise — including when a truthy
query did not match — the specific criteria decide. -/
def searchIncludes (query name phone email : Option String) (c : Contact) : Bool :=
  (pyTruthy query && matchesQuery c (match query with | some q => q | none => "")) ||
    (!nameFilterFails name c && !phoneFilterFails phone c && !emailFilterFails email c &&
      anyFilterSupplied name phone email)

/-- Model of `ContactsService.search`: the collection filtered by
`searchIncludes`, preserving collection order. -/
def contactsSearch (contacts : List Contact) (query name phone email : Option String) :
    List Contact :=
  contacts.filter (searchIncludes query name phone email)

/-! ## Notes service (`src/services/notes_service.py`) -/

/-- Model of Python truthiness for the optional tag-list argument. -/
def pyTruthyTags (o : Option (List String)) : Bool :=
  match o with
  | none => false
  | some l => !l.isEmpty

/-- Model of `NotesService.find_by_tags`: a truthy `tags` argument keeps the
notes whose lower-cased tag set meets the lower-cased query tag set; a truthy
`text` argument then keeps the notes whose lower-cased text contains the
lower-cased query; a falsy argument leaves the running result unchanged. -/
def findByTags (notes : List Note) (tags : Option (List String)) (text : Option String) :
    List Note :=
  let afterTags :=
    if pyTruthyTags tags then
      let tagSet := (match tags with | some l => l | none => []).map pyLower
      notes.filter (fun n => n.tags.any (fun t => tagSet.contains (pyLower t.name)))
    else notes
  if pyTruthy text then
    afterTags.filter (fun n =>
      strContains (pyLower n.text.content) (pyLower (match text with | some s => s | none => "")))
  else afterTags

/-! ## Character-level facts -/

theorem charEq_iff_toNat {a b : Char} : a = b ↔ a.toNat = b.toNat :=
  ⟨fun h => congrArg Char.toNat h, fun h => Char.ext (UInt32.ext h)⟩

theorem toNat_ofNat_small {n : Nat} (h : n < 55296) : (Char.ofNat n).toNat = n := by
  rw [Char.ofNat, dif_pos (Or.inl (show (n : Nat) < 55296 from h))]
  rfl

theorem isUpper_toNat (c : Char) : c.isUpper = (decide (65 ≤ c.toNat) && decide (c.toNat ≤ 90)) := by
  simp only [Char.isUpper, Char.toNat, ge_iff_le, UInt32.le_def]
  rfl

theorem isLower_toNat (c : Char) : c.isLower = (decide (97 ≤ c.toNat) && decide (c.toNat ≤ 122)) := by
  simp only [Char.isLower, Char.toNat, ge_iff_le, UInt32.le_def]
  rfl

theorem isDigit_toNat (c : Char) : c.isDigit = (decide (48 ≤ c.toNat) && decide (c.toNat ≤ 57)) := by
  simp only [Char.isDigit, Char.toNat, ge_iff_le, UInt32.le_def]
  rfl

theorem isAlpha_iff (c : Char) :
    c.isAlpha = true ↔ (65 ≤ c.toNat ∧ c.toNat ≤ 90) ∨ (97 ≤ c.toNat ∧ c.toNat ≤ 122) := by
  simp [Char.isAlpha, isUpper_toNat, isLower_toNat]

theorem isDigitChar_iff (c : Char) :
    isDigitChar c = true ↔ 48 ≤ c.toNat ∧ c.toNat ≤ 57 := by
  simp [isDigitChar]

theorem toLower_toNat (c : Char) :
    (Char.toLower c).toNat = if 65 ≤ c.toNat ∧ c.toNat ≤ 90 then c.toNat + 32 else c.toNat := by
  unfold Char.toLower
  by_cases h : 65 ≤ c.toNat ∧ c.toNat ≤ 90
  · rw [if_pos ⟨h.1, h.2⟩, if_pos h]
    exact toNat_ofNat_small (by omega)
  · rw [if_neg (fun hc => h ⟨hc.1, hc.2⟩), if_neg h]

theorem toLower_eq_self {c : Char} (h : ¬(65 ≤ c.toNat ∧ c.toNat ≤ 90)) : Char.toLower c = c := by
  unfold Char.toLower
  rw [if_neg (fun hc => h ⟨hc.1, hc.2⟩)]

theorem toLower_toLower (c : Char) : Char.toLower (Char.toLower c) = Char.toLower c := by
  apply toLower_eq_self
  rw [toLower_toNat c]
  by_cases h : 65 ≤ c.toNat ∧ c.toNat ≤ 90
  · rw [if_pos h]; omega
  · rw [if_neg h]; omega

theorem isSpaceChar_iff (c : Char) :
    isSpaceChar c = true ↔ c.toNat = 32 ∨ c.toNat = 9 ∨ c.toNat = 10 ∨ c.toNat = 13 := by
  have h1 : (' ').toNat = 32 := rfl
  have h2 : ('\t').toNat = 9 := rfl
  have h3 : ('\n').toNat = 10 := rfl
  have h4 : ('\r').toNat = 13 := rfl
  simp only [isSpaceChar, Bool.or_eq_true, beq_iff_eq, charEq_iff_toNat, h1, h2, h3, h4]
  tauto

theorem digit_not_space {c : Char} (h : isDigitChar c = true) : isSpaceChar c = false := by
  rw [isDigitChar_iff] at h
  rw [Bool.eq_false_iff]
  intro hs
  rw [isSpaceChar_iff] at hs
  omega

theorem isPhoneSep_iff (c : Char) :
    isPhoneSep c = true ↔
      c.toNat = 32 ∨ c.toNat = 9 ∨ c.toNat = 10 ∨ c.toNat = 13 ∨
        c.toNat = 45 ∨ c.toNat = 40 ∨ c.toNat = 41 ∨ c.toNat = 43 := by
  have h1 : ('-').toNat = 45 := rfl
  have h2 : ('(').toNat = 40 := rfl
  have h3 : (')').toNat = 41 := rfl
  have h4 : ('+').toNat = 43 := rfl
  simp only [isPhoneSep, Bool.or_eq_true, beq_iff_eq, charEq_iff_toNat, isSpaceChar_iff,
    h1, h2, h3, h4]
  tauto

theorem digit_not_phoneSep {c : Char} (h : isDigitChar c = true) : isPhoneSep c = false := by
  rw [isDigitChar_iff] at h
  rw [Bool.eq_false_iff]
  intro hs
  rw [isPhoneSep_iff] at hs
  omega

theorem toLower_not_space {c : Char} (h : isSpaceChar c = false) :
    isSpaceChar (Char.toLower c) = false := by
  rw [Bool.eq_false_iff] at h ⊢
  intro hs
  rw [isSpaceChar_iff, toLower_toNat] at hs
  apply h
  rw [isSpaceChar_iff]
  by_cases hc : 65 ≤ c.toNat ∧ c.toNat ≤ 90
  · rw [if_pos hc] at hs; omega
  · rwa [if_neg hc] at hs

/-! ## Facts about `stripList` / `pyStrip` -/

theorem dropWhile_head_false (p : Char → Bool) :
    ∀ (l : List Char) (c : Char), (l.dropWhile p).head? = some c → p c = false := by
  intro l
  induction l with
  | nil => intro c h; simp [List.dropWhile] at h
  | cons a t ih =>
    intro c h
    by_cases ha : p a
    · rw [List.dropWhile_cons_of_pos ha] at h
      exact ih c h
    · rw [List.dropWhile_cons_of_neg ha] at h
      simp at h
      rw [← h]
      exact Bool.eq_false_iff.mpr ha

theorem dropWhile_getLast (p : Char → Bool) :
    ∀ (l : List Char), l.dropWhile p ≠ [] → (l.dropWhile p).getLast? = l.getLast? := by
  intro l
  induction l with
  | nil => intro h; simp [List.dropWhile] at h
  | cons a t ih =>
    intro h
    by_cases ha : p a
    · rw [List.dropWhile_cons_of_pos ha] at h ⊢
      rw [ih h]
      rcases t with _ | ⟨b, t2⟩
      · simp [List.dropWhile] at h
      · rfl
    · rw [List.dropWhile_cons_of_neg ha]

theorem dropWhile_eq_self_of_head (p : Char → Bool) (l : List Char)
    (h : ∀ c, l.head? = some c → p c = false) : l.dropWhile p = l := by
  rcases l with _ | ⟨a, t⟩
  · rfl
  · exact List.dropWhile_cons_of_neg (by rw [h a rfl]; exact Bool.false_ne_true)

theorem stripList_eq_self (l : List Char)
    (h1 : ∀ c, l.head? = some c → isSpaceChar c = false)
    (h2 : ∀ c, l.getLast? = some c → isSpaceChar c = false) : stripList l = l := by
  unfold stripList
  rw [dropWhile_eq_self_of_head _ _ h1]
  rw [dropWhile_eq_self_of_head _ _ (fun c hc => h2 c (by rwa [List.head?_reverse] at hc))]
  exact List.reverse_reverse l

theorem stripList_head (l : List Char) (c : Char)
    (h : (stripList l).head? = some c) : isSpaceChar c = false := by
  unfold stripList at h
  rw [List.head?_reverse] at h
  by_cases hne : (l.dropWhile isSpaceChar).reverse.dropWhile isSpaceChar = []
  · rw [hne] at h; simp at h
  · rw [dropWhile_getLast _ _ hne, List.getLast?_reverse] at h
    exact dropWhile_head_false _ _ _ h

theorem stripList_getLast (l : List Char) (c : Char)
    (h : (stripList l).getLast? = some c) : isSpaceChar c = false := by
  unfold stripList at h
  rw [List.getLast?_reverse] at h
  exact dropWhile_head_false _ _ _ h

theorem stripList_idem (l : List Char) : stripList (stripList l) = stripList l :=
  stripList_eq_self _ (stripList_head l) (stripList_getLast l)

theorem pyStrip_of_strip (s : String) : pyStrip (pyStrip s) = pyStrip s := by
  unfold pyStrip
  have : (String.mk (stripList s.toList)).toList = stripList s.toList := rfl
  rw [this, stripList_idem]

theorem stripList_of_digits (l : List Char) (h : l.all isDigitChar = true) :
    stripList l = l := by
  apply stripList_eq_self
  · intro c hc
    exact digit_not_space (by
      rw [List.all_eq_true] at h
      exact h c (by
        rcases l with _ | ⟨a, t⟩
        · simp at hc
        · simp at hc; rw [← hc]; exact List.mem_cons_self a t))
  · intro c hc
    rw [List.all_eq_true] at h
    exact digit_not_space (h c (List.mem_of_mem_getLast? hc))

/-! ## Facts about decimal rendering and parsing -/

theorem digitChar_toNat (n : Nat) : (digitChar n).toNat = 48 + n % 10 := by
  unfold digitChar
  exact toNat_ofNat_small (by omega)

theorem digitChar_isDigit (n : Nat) : isDigitChar (digitChar n) = true := by
  rw [isDigitChar_iff, digitChar_toNat]
  omega

theorem natDigitsRev_eq (n : Nat) :
    natDigitsRev n =
      if n < 10 then [digitChar n] else digitChar (n % 10) :: natDigitsRev (n / 10) := by
  rw [natDigitsRev]
  by_cases h : n < 10
  · rw [dif_pos h, if_pos h]
  · rw [dif_neg h, if_neg h]

theorem natDigitsRev_all (n : Nat) : (natDigitsRev n).all isDigitChar = true := by
  induction n using Nat.strong_induction_on with
  | _ n ih =>
    rw [natDigitsRev_eq]
    by_cases h : n < 10
    · rw [if_pos h]
      simp [digitChar_isDigit]
    · rw [if_neg h]
      simp only [List.all_cons, Bool.and_eq_true]
      exact ⟨digitChar_isDigit _, ih (n / 10) (by omega)⟩

theorem natToChars_all (n : Nat) : (natToChars n).all isDigitChar = true := by
  unfold natToChars
  rw [List.all_eq_true] at *
  intro c hc
  have := natDigitsRev_all n
  rw [List.all_eq_true] at this
  exact this c (List.mem_reverse.mp hc)

theorem digitsToNat_natToChars (n : Nat) : digitsToNat (natToChars n) = n := by
  induction n using Nat.strong_induction_on with
  | _ n ih =>
    unfold natToChars
    rw [natDigitsRev_eq]
    by_cases h : n < 10
    · rw [if_pos h]
      show (0 * 10 + ((digitChar n).toNat - 48)) = n
      rw [digitChar_toNat]
      omega
    · rw [if_neg h]
      unfold digitsToNat
      rw [List.reverse_cons, List.foldl_append]
      have hrec := ih (n / 10) (by omega)
      unfold digitsToNat natToChars at hrec
      rw [hrec]
      show n / 10 * 10 + ((digitChar (n % 10)).toNat - 48) = n
      rw [digitChar_toNat]
      omega

theorem natDigitsRev_length_one {n : Nat} (h : n < 10) : (natDigitsRev n).length = 1 := by
  rw [natDigitsRev_eq, if_pos h]
  rfl

theorem natDigitsRev_length_step {n : Nat} (h : 10 ≤ n) :
    (natDigitsRev n).length = (natDigitsRev (n / 10)).length + 1 := by
  rw [natDigitsRev_eq, if_neg (by omega)]
  rfl

theorem natToChars_length_four {y : Nat} (h1 : 1000 ≤ y) (h2 : y ≤ 9999) :
    (natToChars y).length = 4 := by
  unfold natToChars
  rw [List.length_reverse]
  rw [natDigitsRev_length_step (by omega), natDigitsRev_length_step (by omega),
    natDigitsRev_length_step (by omega), natDigitsRev_length_one (by omega)]

theorem pad2_length {n : Nat} (h : n ≤ 99) : (pad2 n).length = 2 := by
  unfold pad2
  by_cases h10 : n < 10
  · rw [if_pos h10]
    simp [natToChars, List.length_reverse, natDigitsRev_length_one h10]
  · rw [if_neg h10]
    unfold natToChars
    rw [List.length_reverse, natDigitsRev_length_step (by omega),
      natDigitsRev_length_one (by omega)]

theorem pad2_all {n : Nat} : (pad2 n).all isDigitChar = true := by
  unfold pad2
  by_cases h10 : n < 10
  · rw [if_pos h10]
    simp only [List.all_cons, Bool.and_eq_true]
    exact ⟨by rw [isDigitChar_iff]; exact ⟨by decide, by decide⟩, natToChars_all n⟩
  · rw [if_neg h10]
    exact natToChars_all n

theorem digitsToNat_pad2 {n : Nat} : digitsToNat (pad2 n) = n := by
  unfold pad2
  by_cases h10 : n < 10
  · rw [if_pos h10]
    unfold digitsToNat
    rw [List.foldl_cons]
    have : (0 * 10 + (('0').toNat - 48)) = 0 := by decide
    rw [this]
    exact digitsToNat_natToChars n
  · rw [if_neg h10]
    exact digitsToNat_natToChars n

theorem parseNumField_pad2 {n lo hi : Nat} (h1 : lo ≤ n) (h2 : n ≤ hi) (h3 : hi ≤ 99) :
    parseNumField (pad2 n) 1 2 lo hi = some n := by
  unfold parseNumField
  rw [pad2_length (by omega)]
  rw [if_pos ⟨by omega, by omega, pad2_all⟩]
  rw [digitsToNat_pad2]
  rw [if_pos ⟨h1, h2⟩]

theorem parseNumField_year {y : Nat} (h1 : 1000 ≤ y) (h2 : y ≤ 9999) :
    parseNumField (natToChars y) 4 4 0 9999 = some y := by
  unfold parseNumField
  rw [natToChars_length_four h1 h2]
  rw [if_pos ⟨by omega, by omega, natToChars_all y⟩]
  rw [digitsToNat_natToChars]
  rw [if_pos ⟨by omega, by omega⟩]

/-! ## Facts about `splitOnSep` -/

theorem splitOnSep_cons (sep c : Char) (cs : List Char) :
    splitOnSep sep (c :: cs) =
      (if c == sep then [] :: splitOnSep sep cs
       else
         match splitOnSep sep cs with
         | [] => [[c]]
         | h :: t => (c :: h) :: t) := rfl

theorem splitOnSep_no_sep (sep : Char) :
    ∀ (l : List Char), (∀ c ∈ l, (c == sep) = false) → splitOnSep sep l = [l] := by
  intro l
  induction l with
  | nil => intro _; rfl
  | cons a t ih =>
    intro h
    rw [splitOnSep_cons, h a (List.mem_cons_self a t)]
    simp only [Bool.false_eq_true, if_false]
    rw [ih (fun c hc => h c (List.mem_cons_of_mem a hc))]

theorem splitOnSep_append (sep : Char) :
    ∀ (a b : List Char), (∀ c ∈ a, (c == sep) = false) →
      splitOnSep sep (a ++ sep :: b) = a :: splitOnSep sep b := by
  intro a
  induction a with
  | nil =>
    intro b _
    show splitOnSep sep (sep :: b) = [] :: splitOnSep sep b
    rw [splitOnSep_cons]
    simp
  | cons c a2 ih =>
    intro b h
    show splitOnSep sep (c :: (a2 ++ sep :: b)) = (c :: a2) :: splitOnSep sep b
    rw [splitOnSep_cons, h c (List.mem_cons_self c a2)]
    simp only [Bool.false_eq_true, if_false]
    rw [ih b (fun x hx => h x (List.mem_cons_of_mem c hx))]

/-! ## Round trip of the birthday rendering -/

theorem digit_ne_dot {c : Char} (h : isDigitChar c = true) : (c == '.') = false := by
  rw [isDigitChar_iff] at h
  rw [beq_eq_false_iff_ne]
  intro he
  rw [charEq_iff_toNat] at he
  have : ('.').toNat = 46 := rfl
  omega

theorem all_digits_no_dot {l : List Char} (h : l.all isDigitChar = true) :
    ∀ c ∈ l, (c == '.') = false := by
  rw [List.all_eq_true] at h
  exact fun c hc => digit_ne_dot (h c hc)

theorem natDigitsRev_ne_nil (n : Nat) : natDigitsRev n ≠ [] := by
  rw [natDigitsRev_eq]
  by_cases h : n < 10
  · rw [if_pos h]; simp
  · rw [if_neg h]; simp

theorem natToChars_ne_nil (n : Nat) : natToChars n ≠ [] := by
  unfold natToChars
  simp [natDigitsRev_ne_nil]

theorem pad2_ne_nil (n : Nat) : pad2 n ≠ [] := by
  unfold pad2
  by_cases h : n < 10
  · rw [if_pos h]; simp
  · rw [if_neg h]; exact natToChars_ne_nil n

theorem head_not_space_of_digits {l : List Char} (h : l.all isDigitChar = true) :
    ∀ c, l.head? = some c → isSpaceChar c = false := by
  intro c hc
  rw [List.all_eq_true] at h
  exact digit_not_space (h c (List.mem_of_mem_head? hc))

theorem getLast_not_space_of_digits {l : List Char} (h : l.all isDigitChar = true) :
    ∀ c, l.getLast? = some c → isSpaceChar c = false := by
  intro c hc
  rw [List.all_eq_true] at h
  exact digit_not_space (h c (List.mem_of_mem_getLast? hc))

theorem formatDMY_toList (d : PyDate) :
    (formatDMY d).toList = pad2 d.day ++ '.' :: pad2 d.month ++ '.' :: natToChars d.year := rfl

theorem pyStrip_formatDMY (d : PyDate) : pyStrip (formatDMY d) = formatDMY d := by
  unfold pyStrip
  rw [formatDMY_toList]
  rw [stripList_eq_self]
  · rfl
  · intro c hc
    rw [List.head?_append_of_ne_nil _
      (by simp [pad2_ne_nil d.day] : pad2 d.day ++ '.' :: pad2 d.month ≠ [])] at hc
    rw [List.head?_append_of_ne_nil _ (pad2_ne_nil d.day)] at hc
    exact head_not_space_of_digits pad2_all c hc
  · intro c hc
    rw [List.getLast?_append_of_ne_nil _
      (by simp : ('.' : Char) :: natToChars d.year ≠ [])] at hc
    rw [show ('.' : Char) :: natToChars d.year = ['.'] ++ natToChars d.year from rfl] at hc
    rw [List.getLast?_append_of_ne_nil _ (natToChars_ne_nil d.year)] at hc
    exact getLast_not_space_of_digits (natToChars_all d.year) c hc

theorem daysInMonth_le_31 (y m : Nat) : daysInMonth y m ≤ 31 := by
  unfold daysInMonth
  by_cases h2 : m = 2
  · rw [if_pos h2]
    by_cases hl : isLeap y
    · rw [if_pos hl]; omega
    · rw [if_neg hl]; omega
  · rw [if_neg h2]
    by_cases h30 : m = 4 ∨ m = 6 ∨ m = 9 ∨ m = 11
    · rw [if_pos h30]; omega
    · rw [if_neg h30]

theorem pyDate_valid_iff (d : PyDate) :
    d.valid = true ↔
      1 ≤ d.year ∧ d.year ≤ 9999 ∧ 1 ≤ d.month ∧ d.month ≤ 12 ∧
        1 ≤ d.day ∧ d.day ≤ daysInMonth d.year d.month := by
  simp [PyDate.valid, Bool.and_eq_true, decide_eq_true_iff]
  tauto

theorem strptimeDMY_formatDMY {d : PyDate} (hv : d.valid = true) (hy : 1000 ≤ d.year) :
    strptimeDMY (formatDMY d) = some d := by
  rw [pyDate_valid_iff] at hv
  unfold strptimeDMY
  rw [formatDMY_toList]
  have hre : pad2 d.day ++ '.' :: pad2 d.month ++ '.' :: natToChars d.year
      = pad2 d.day ++ '.' :: (pad2 d.month ++ '.' :: (natToChars d.year)) := by simp
  rw [hre]
  rw [splitOnSep_append '.' (pad2 d.day) _ (all_digits_no_dot pad2_all)]
  rw [splitOnSep_append '.' (pad2 d.month) _ (all_digits_no_dot pad2_all)]
  rw [splitOnSep_no_sep '.' _ (all_digits_no_dot (natToChars_all d.year))]
  dsimp only
  have hday := daysInMonth_le_31 d.year d.month
  rw [parseNumField_pad2 (by omega) (show d.day ≤ 31 by omega) (by omega)]
  rw [parseNumField_pad2 (by omega) (show d.month ≤ 12 by omega) (by omega)]
  rw [parseNumField_year hy (by omega)]
  unfold mkParsedDate
  dsimp only
  rw [if_pos ⟨by omega, by omega⟩]

/-! ## Lowering preserves the email pattern -/

theorem isEmpty_map (f : Char → Char) (l : List Char) : (l.map f).isEmpty = l.isEmpty := by
  cases l <;> rfl

theorem isAlphanum_iff (c : Char) :
    c.isAlphanum = true ↔
      (65 ≤ c.toNat ∧ c.toNat ≤ 90) ∨ (97 ≤ c.toNat ∧ c.toNat ≤ 122) ∨
        (48 ≤ c.toNat ∧ c.toNat ≤ 57) := by
  simp [Char.isAlphanum, isAlpha_iff, isDigit_toNat]
  tauto

theorem isAlpha_toLower (c : Char) : (Char.toLower c).isAlpha = c.isAlpha := by
  rw [← Bool.coe_iff_coe, isAlpha_iff, isAlpha_iff, toLower_toNat]
  by_cases h : 65 ≤ c.toNat ∧ c.toNat ≤ 90
  · rw [if_pos h]; omega
  · rw [if_neg h]

theorem localChar_iff (c : Char) :
    localChar c = true ↔
      (65 ≤ c.toNat ∧ c.toNat ≤ 90) ∨ (97 ≤ c.toNat ∧ c.toNat ≤ 122) ∨
        (48 ≤ c.toNat ∧ c.toNat ≤ 57) ∨ c.toNat = 46 ∨ c.toNat = 95 ∨
        c.toNat = 37 ∨ c.toNat = 43 ∨ c.toNat = 45 := by
  have h1 : ('.').toNat = 46 := rfl
  have h2 : ('_').toNat = 95 := rfl
  have h3 : ('%').toNat = 37 := rfl
  have h4 : ('+').toNat = 43 := rfl
  have h5 : ('-').toNat = 45 := rfl
  simp only [localChar, Bool.or_eq_true, beq_iff_eq, charEq_iff_toNat, isAlphanum_iff,
    h1, h2, h3, h4, h5]
  tauto

theorem domainChar_iff (c : Char) :
    domainChar c = true ↔
      (65 ≤ c.toNat ∧ c.toNat ≤ 90) ∨ (97 ≤ c.toNat ∧ c.toNat ≤ 122) ∨
        (48 ≤ c.toNat ∧ c.toNat ≤ 57) ∨ c.toNat = 46 ∨ c.toNat = 45 := by
  have h1 : ('.').toNat = 46 := rfl
  have h5 : ('-').toNat = 45 := rfl
  simp only [domainChar, Bool.or_eq_true, beq_iff_eq, charEq_iff_toNat, isAlphanum_iff, h1, h5]
  tauto

theorem localChar_toLower (c : Char) : localChar (Char.toLower c) = localChar c := by
  rw [← Bool.coe_iff_coe, localChar_iff, localChar_iff, toLower_toNat]
  by_cases h : 65 ≤ c.toNat ∧ c.toNat ≤ 90
  · rw [if_pos h]; omega
  · rw [if_neg h]

theorem domainChar_toLower (c : Char) : domainChar (Char.toLower c) = domainChar c := by
  rw [← Bool.coe_iff_coe, domainChar_iff, domainChar_iff, toLower_toNat]
  by_cases h : 65 ≤ c.toNat ∧ c.toNat ≤ 90
  · rw [if_pos h]; omega
  · rw [if_neg h]

theorem toLower_beq_low {x : Char} (hx1 : x.toNat < 97 ∨ 122 < x.toNat)
    (hx2 : ¬(65 ≤ x.toNat ∧ x.toNat ≤ 90)) (c : Char) :
    (Char.toLower c == x) = (c == x) := by
  rw [← Bool.coe_iff_coe, beq_iff_eq, beq_iff_eq, charEq_iff_toNat, charEq_iff_toNat,
    toLower_toNat]
  by_cases h : 65 ≤ c.toNat ∧ c.toNat ≤ 90
  · rw [if_pos h]; omega
  · rw [if_neg h]

theorem toLower_bne_at (c : Char) : (Char.toLower c != '@') = (c != '@') := by
  have h := toLower_beq_low (x := '@') (by left; decide) (by decide) c
  simp only [bne, h]

theorem toLower_beq_dot (c : Char) : (Char.toLower c == '.') = (c == '.') := by
  exact toLower_beq_low (by left; decide) (by decide) c

theorem domainTailMatch_lower (r : List Char) :
    domainTailMatch (r.map Char.toLower) = domainTailMatch r := by
  simp only [domainTailMatch]
  rw [← List.map_reverse, List.takeWhile_map, List.dropWhile_map]
  have hp : (Char.isAlpha ∘ Char.toLower) = Char.isAlpha := funext isAlpha_toLower
  rw [hp]
  rcases hdw : r.reverse.dropWhile Char.isAlpha with _ | ⟨d, p⟩
  · rfl
  · simp only [List.map_cons]
    rw [toLower_beq_dot d, isEmpty_map, List.length_map, List.all_map]
    have hq : (domainChar ∘ Char.toLower) = domainChar := funext domainChar_toLower
    rw [hq]

theorem emailPatternMatch_lower (s : String) :
    emailPatternMatch (pyLower s) = emailPatternMatch s := by
  simp only [emailPatternMatch]
  have hl : (pyLower s).toList = s.toList.map Char.toLower := rfl
  rw [hl, List.takeWhile_map, List.dropWhile_map]
  have hp : ((fun c => c != '@') ∘ Char.toLower) = (fun c => c != '@') :=
    funext toLower_bne_at
  rw [hp]
  rcases hdw : s.toList.dropWhile (fun c => c != '@') with _ | ⟨a, r⟩
  · rfl
  · simp only [List.map_cons]
    rw [isEmpty_map, List.all_map]
    have hq : (localChar ∘ Char.toLower) = localChar := funext localChar_toLower
    rw [hq, domainTailMatch_lower]

theorem pyLower_pyLower (s : String) : pyLower (pyLower s) = pyLower s := by
  unfold pyLower
  have h1 : (String.mk (s.toList.map Char.toLower)).toList = s.toList.map Char.toLower := rfl
  rw [h1, List.map_map]
  have : (Char.toLower ∘ Char.toLower) = Char.toLower := funext toLower_toLower
  rw [this]

theorem pyStrip_pyLower_strip (v : String) :
    pyStrip (pyLower (pyStrip v)) = pyLower (pyStrip v) := by
  unfold pyStrip pyLower
  apply congrArg String.mk
  apply stripList_eq_self
  · intro c hc
    have hc2 : ((stripList v.toList).map Char.toLower).head? = some c := hc
    rw [List.head?_map] at hc2
    rcases hh : (stripList v.toList).head? with _ | c0
    · rw [hh] at hc2; simp at hc2
    · rw [hh] at hc2
      simp at hc2
      rw [← hc2]
      exact toLower_not_space (stripList_head _ _ hh)
  · intro c hc
    have hc2 : ((stripList v.toList).map Char.toLower).getLast? = some c := hc
    rw [List.getLast?_map] at hc2
    rcases hh : (stripList v.toList).getLast? with _ | c0
    · rw [hh] at hc2; simp at hc2
    · rw [hh] at hc2
      simp at hc2
      rw [← hc2]
      exact toLower_not_space (stripList_getLast _ _ hh)

/-! ## Characterizations of the field constructors -/

theorem string_mk_toList (s : String) : String.mk s.toList = s := rfl

theorem toList_ne_nil_iff (s : String) : s ≠ "" ↔ s.toList ≠ [] := by
  constructor
  · intro h he
    apply h
    have : String.mk s.toList = String.mk [] := by rw [he]
    rwa [string_mk_toList] at this
  · intro h he
    apply h
    rw [he]
    rfl

theorem isEmpty_false_of_ne {s : String} (h : s ≠ "") : s.isEmpty = false :=
  eq_false_of_ne_true (fun ht => h ((String.isEmpty_iff s).mp ht))

theorem pyStrip_of_digits {s : String} (h : s.toList.all isDigitChar = true) :
    pyStrip s = s := by
  unfold pyStrip
  rw [stripList_of_digits _ h, string_mk_toList]

theorem cleanPhone_strip (s : String) : cleanPhone (pyStrip s) = cleanPhone s := by
  unfold cleanPhone
  rw [pyStrip_of_strip]

theorem phone_init_ok {s : String} {p : Phone} (h : Phone.init s = .ok p) :
    p.value = cleanPhone s ∧ p.value.toList.length = 10 ∧
      p.value.toList.all isDigitChar = true := by
  unfold Phone.init at h
  split at h
  · exact absurd h (by simp)
  · rename_i hemp
    split at h
    · exact absurd h (by simp)
    · rename_i a heq
      simp only [Except.ok.injEq] at h
      have hp : p.value = cleanPhone s := by rw [← h]; rfl
      unfold is_phone at heq
      rw [if_neg hemp, cleanPhone_strip] at heq
      have heq2 : (if (cleanPhone s).toList.length = 10 ∧ (cleanPhone s).toList.all isDigitChar = true
          then (Except.ok true : Except PAError Bool)
          else Except.error (PAError.invalidPhone (pyStrip s))) = Except.ok a := heq
      split at heq2
      · rename_i hcond
        exact ⟨hp, by rw [hp]; exact hcond.1, by rw [hp]; exact hcond.2⟩
      · exact absurd heq2 (by simp)

theorem phone_init_digits {v : String} (hlen : v.toList.length = 10)
    (hdig : v.toList.all isDigitChar = true) : Phone.init v = .ok ⟨v⟩ := by
  have hne : v ≠ "" := by
    rw [toList_ne_nil_iff]
    intro he
    rw [he] at hlen
    simp at hlen
  have hstrip : pyStrip v = v := pyStrip_of_digits hdig
  have hclean : cleanPhone v = v := by
    unfold cleanPhone
    rw [hstrip]
    rw [List.filter_eq_self.mpr (fun c hc => by
      rw [List.all_eq_true] at hdig
      rw [digit_not_phoneSep (hdig c hc)]
      rfl)]
    exact string_mk_toList v
  unfold Phone.init
  rw [hstrip, isEmpty_false_of_ne hne]
  simp only [Bool.false_eq_true, if_false]
  unfold is_phone
  rw [isEmpty_false_of_ne hne]
  simp only [Bool.false_eq_true, if_false]
  rw [hclean]
  rw [if_pos ⟨hlen, hdig⟩]
  unfold normalize_phone
  rw [hclean]

theorem email_init_ok {s : String} {e : Email} (h : Email.init s = .ok e) :
    e.value = pyLower (pyStrip s) ∧ emailPatternMatch (pyStrip s) = true := by
  unfold Email.init at h
  split at h
  · exact absurd h (by simp)
  · rename_i hemp
    split at h
    · exact absurd h (by simp)
    · rename_i a heq
      simp only [Except.ok.injEq] at h
      unfold is_email at heq
      rw [if_neg hemp, pyStrip_of_strip] at heq
      split at heq
      · exact absurd heq (by simp)
      · rename_i hm
        have hm2 : emailPatternMatch (pyStrip s) = true := by
          revert hm
          cases emailPatternMatch (pyStrip s) <;> simp
        exact ⟨by rw [← h], hm2⟩

theorem emailPatternMatch_empty : emailPatternMatch "" = false := rfl

theorem email_init_stored {s : String} (hm : emailPatternMatch (pyStrip s) = true) :
    Email.init (pyLower (pyStrip s)) = .ok ⟨pyLower (pyStrip s)⟩ := by
  have hne : pyLower (pyStrip s) ≠ "" := by
    intro he
    have h1 : ((pyStrip s).toList.map Char.toLower) = [] := by
      have h0 : (pyLower (pyStrip s)).toList = ((pyStrip s).toList.map Char.toLower) := rfl
      rw [he] at h0
      exact h0.symm
    have h2 : (pyStrip s).toList = [] := by
      rcases hx : (pyStrip s).toList with _ | ⟨a, t⟩
      · rfl
      · rw [hx] at h1; simp at h1
    have h3 : pyStrip s = "" := by
      rw [← string_mk_toList (pyStrip s), h2]
    rw [h3, emailPatternMatch_empty] at hm
    exact Bool.false_ne_true hm
  have hstrip := pyStrip_pyLower_strip s
  unfold Email.init
  rw [hstrip, pyLower_pyLower, isEmpty_false_of_ne hne]
  simp only [Bool.false_eq_true, if_false]
  unfold is_email
  rw [isEmpty_false_of_ne hne, hstrip, emailPatternMatch_lower, hm]
  simp only [Bool.not_true, Bool.false_eq_true, if_false]

theorem name_init_stored {n : String} (hs : pyStrip n = n) (hne : n ≠ "") :
    Name.init (some n) = .ok ⟨n⟩ := by
  unfold Name.init
  dsimp only
  rw [hs, isEmpty_false_of_ne hne]
  simp

theorem address_init_stored {a : String} (hs : pyStrip a = a) (hne : a ≠ "") :
    Address.init a = ⟨a⟩ := by
  unfold Address.init
  rw [isEmpty_false_of_ne hne, hs]
  simp

/-! ## Validity of parsed dates and the birthday field round trip -/

theorem parseNumField_bounds {s : List Char} {a b lo hi n : Nat}
    (h : parseNumField s a b lo hi = some n) : lo ≤ n ∧ n ≤ hi := by
  unfold parseNumField at h
  split at h
  · have h2 : (if lo ≤ digitsToNat s ∧ digitsToNat s ≤ hi then some (digitsToNat s) else none)
        = some n := h
    split at h2
    · rename_i hrange
      simp only [Option.some.injEq] at h2
      rw [← h2]
      exact hrange
    · exact absurd h2 (by simp)
  · exact absurd h (by simp)

theorem mkParsedDate_ok {y m dd : Nat} {d : PyDate} (h : mkParsedDate y m dd = some d) :
    d = ⟨y, m, dd⟩ ∧ 1 ≤ y ∧ dd ≤ daysInMonth y m := by
  unfold mkParsedDate at h
  split at h
  · rename_i hc
    simp only [Option.some.injEq] at h
    exact ⟨h.symm, hc.1, hc.2⟩
  · exact absurd h (by simp)

theorem strptimeDMY_valid {s : String} {d : PyDate} (h : strptimeDMY s = some d) :
    d.valid = true := by
  unfold strptimeDMY at h
  split at h
  · rename_i ds ms ys
    split at h
    · rename_i dd m y hd hm hy
      have hbd := parseNumField_bounds hd
      have hbm := parseNumField_bounds hm
      have hby := parseNumField_bounds hy
      obtain ⟨hde, hy1, hdm⟩ := mkParsedDate_ok h
      rw [hde, pyDate_valid_iff]
      dsimp only
      refine ⟨by omega, by omega, by omega, by omega, by omega, by exact hdm⟩
    · exact absurd h (by simp)
  · exact absurd h (by simp)

theorem strptimeYMD_valid {s : String} {d : PyDate} (h : strptimeYMD s = some d) :
    d.valid = true := by
  unfold strptimeYMD at h
  split at h
  · rename_i ys ms ds
    split at h
    · rename_i y m dd hy hm hd
      have hbd := parseNumField_bounds hd
      have hbm := parseNumField_bounds hm
      have hby := parseNumField_bounds hy
      obtain ⟨hde, hy1, hdm⟩ := mkParsedDate_ok h
      rw [hde, pyDate_valid_iff]
      dsimp only
      refine ⟨by omega, by omega, by omega, by omega, by omega, by exact hdm⟩
    · exact absurd h (by simp)
  · exact absurd h (by simp)

theorem birthday_init_ok {s : String} {b : Birthday} (h : Birthday.init s = .ok b) :
    ∃ d, b.value = .date d ∧ d.valid = true := by
  unfold Birthday.init at h
  split at h
  · split at h
    · rename_i d hd
      simp only [Except.ok.injEq] at h
      exact ⟨d, by rw [← h], strptimeDMY_valid hd⟩
    · exact absurd h (by simp)
  · split at h
    · split at h
      · rename_i d hd
        simp only [Except.ok.injEq] at h
        exact ⟨d, by rw [← h], strptimeYMD_valid hd⟩
      · exact absurd h (by simp)
    · exact absurd h (by simp)

theorem formatDMY_contains_dot (d : PyDate) : (formatDMY d).toList.contains '.' = true := by
  rw [formatDMY_toList, List.elem_iff]
  exact List.mem_append_right _ (List.mem_cons_self _ _)

theorem birthday_init_format {d : PyDate} (hv : d.valid = true) (hy : 1000 ≤ d.year) :
    Birthday.init (formatDMY d) = .ok ⟨.date d⟩ := by
  unfold Birthday.init
  rw [if_pos (formatDMY_contains_dot d), pyStrip_formatDMY, strptimeDMY_formatDMY hv hy]

/-! ## Per-field invariants established by construction -/

theorem name_init_ok {o : Option String} {n : Name} (h : Name.init o = .ok n) :
    pyStrip n.value = n.value ∧ n.value ≠ "" := by
  unfold Name.init at h
  rcases o with _ | s
  · exact absurd h (by simp)
  · dsimp only at h
    split at h
    · exact absurd h (by simp)
    · rename_i hne
      simp only [Except.ok.injEq] at h
      have hv : n.value = pyStrip s := by rw [← h]
      constructor
      · rw [hv, pyStrip_of_strip]
      · rw [hv]
        intro he
        rw [he] at hne
        exact hne rfl

theorem email_stored_ne {s : String} (hm : emailPatternMatch (pyStrip s) = true) :
    pyLower (pyStrip s) ≠ "" := by
  intro he
  have h1 : ((pyStrip s).toList.map Char.toLower) = [] := by
    have h0 : (pyLower (pyStrip s)).toList = ((pyStrip s).toList.map Char.toLower) := rfl
    rw [he] at h0
    exact h0.symm
  have h2 : (pyStrip s).toList = [] := by
    rcases hx : (pyStrip s).toList with _ | ⟨a, t⟩
    · rfl
    · rw [hx] at h1; simp at h1
  have h3 : pyStrip s = "" := by
    rw [← string_mk_toList (pyStrip s), h2]
  rw [h3, emailPatternMatch_empty] at hm
  exact Bool.false_ne_true hm

theorem phone_value_ne {p : Phone} (hlen : p.value.toList.length = 10) : p.value ≠ "" := by
  rw [toList_ne_nil_iff]
  intro he
  rw [he] at hlen
  simp at hlen

theorem formatDMY_ne (d : PyDate) : formatDMY d ≠ "" := by
  rw [toList_ne_nil_iff, formatDMY_toList]
  intro he
  simp at he

theorem address_init_cases (s : String) :
    Address.init s = ⟨""⟩ ∨ Address.init s = ⟨pyStrip s⟩ := by
  unfold Address.init
  by_cases h : s.isEmpty
  · left; rw [if_pos h]
  · right; rw [if_neg h]

theorem exc_bind_ok {α β : Type} (a : α) (f : α → Except PAError β) :
    (Except.ok a >>= f) = f a := rfl

theorem phone_from_dict_step (p : Option Phone)
    (h : ∀ q, p = some q →
      q.value.toList.length = 10 ∧ q.value.toList.all isDigitChar = true) :
    (if pyTruthy (p.map Phone.value) then
        match p.map Phone.value with
        | some s => (Phone.init s).map some
        | none => pure none
      else pure none) = (Except.ok p : Except PAError (Option Phone)) := by
  rcases p with _ | q
  · rfl
  · obtain ⟨hlen, hdig⟩ := h q rfl
    have hne := isEmpty_false_of_ne (phone_value_ne hlen)
    simp [pyTruthy, hne, phone_init_digits hlen hdig, Except.map, pure, Except.pure]

theorem email_from_dict_step (e : Option Email)
    (h : ∀ q, e = some q →
      ∃ s, q.value = pyLower (pyStrip s) ∧ emailPatternMatch (pyStrip s) = true) :
    (if pyTruthy (e.map Email.value) then
        match e.map Email.value with
        | some s => (Email.init s).map some
        | none => pure none
      else pure none) = (Except.ok e : Except PAError (Option Email)) := by
  rcases e with _ | q
  · rfl
  · obtain ⟨s, hv, hm⟩ := h q rfl
    obtain ⟨qv⟩ := q
    dsimp only at hv
    subst hv
    have hne := isEmpty_false_of_ne (email_stored_ne hm)
    simp [pyTruthy, hne, email_init_stored hm, Except.map, pure, Except.pure]

theorem address_from_dict_step (a : Option Address)
    (h : ∀ q, a = some q → pyStrip q.value = q.value ∧ q.value ≠ "") :
    (if pyTruthy (a.map Address.value) then
        match a.map Address.value with
        | some s => some (Address.init s)
        | none => none
      else none) = a := by
  rcases a with _ | q
  · rfl
  · obtain ⟨hs, hne⟩ := h q rfl
    simp [pyTruthy, isEmpty_false_of_ne hne, address_init_stored hs hne]

theorem from_dict_ok_nobday (c : Contact) (hbd : c.birthday = none)
    (hname : pyStrip c.name.value = c.name.value ∧ c.name.value ≠ "")
    (hphone : ∀ p, c.phone = some p →
      p.value.toList.length = 10 ∧ p.value.toList.all isDigitChar = true)
    (hemail : ∀ e, c.email = some e →
      ∃ s, e.value = pyLower (pyStrip s) ∧ emailPatternMatch (pyStrip s) = true)
    (haddr : ∀ a, c.address = some a → pyStrip a.value = a.value ∧ a.value ≠ "") :
    Contact.from_dict
      ⟨c.id, c.name.value, c.phone.map Phone.value, c.email.map Email.value,
        c.address.map Address.value, none⟩ = .ok c := by
  obtain ⟨cid, n, p, e, a, b⟩ := c
  dsimp only at hbd hname hphone hemail haddr ⊢
  subst hbd
  rcases p with _ | pp
  · rcases e with _ | ee
    · rcases a with _ | aa
      · simp [Contact.from_dict, Contact.init, phoneField, emailField, addressField,
          birthdayField, Bind.bind, Except.bind, Except.map, pure,
          Except.pure, pyTruthy, name_init_stored hname.1 hname.2, pyTruthy]
      · simp [Contact.from_dict, Contact.init, phoneField, emailField, addressField,
          birthdayField, Bind.bind, Except.bind, Except.map, pure,
          Except.pure, pyTruthy, name_init_stored hname.1 hname.2, isEmpty_false_of_ne (haddr aa rfl).2, address_init_stored (haddr aa rfl).1 (haddr aa rfl).2]
    · obtain ⟨es, hev, hem⟩ := hemail ee rfl
      obtain ⟨eev⟩ := ee
      dsimp only at hev
      subst hev
      rcases a with _ | aa
      · simp [Contact.from_dict, Contact.init, phoneField, emailField, addressField,
          birthdayField, Bind.bind, Except.bind, Except.map, pure,
          Except.pure, pyTruthy, name_init_stored hname.1 hname.2, isEmpty_false_of_ne (email_stored_ne hem), email_init_stored hem]
      · simp [Contact.from_dict, Contact.init, phoneField, emailField, addressField,
          birthdayField, Bind.bind, Except.bind, Except.map, pure,
          Except.pure, pyTruthy, name_init_stored hname.1 hname.2, isEmpty_false_of_ne (email_stored_ne hem), email_init_stored hem, isEmpty_false_of_ne (haddr aa rfl).2, address_init_stored (haddr aa rfl).1 (haddr aa rfl).2]
  · rcases e with _ | ee
    · rcases a with _ | aa
      · simp [Contact.from_dict, Contact.init, phoneField, emailField, addressField,
          birthdayField, Bind.bind, Except.bind, Except.map, pure,
          Except.pure, pyTruthy, name_init_stored hname.1 hname.2, isEmpty_false_of_ne (phone_value_ne (hphone pp rfl).1), phone_init_digits (hphone pp rfl).1 (hphone pp rfl).2]
      · simp [Contact.from_dict, Contact.init, phoneField, emailField, addressField,
          birthdayField, Bind.bind, Except.bind, Except.map, pure,
          Except.pure, pyTruthy, name_init_stored hname.1 hname.2, isEmpty_false_of_ne (phone_value_ne (hphone pp rfl).1), phone_init_digits (hphone pp rfl).1 (hphone pp rfl).2, isEmpty_false_of_ne (haddr aa rfl).2, address_init_stored (haddr aa rfl).1 (haddr aa rfl).2]
    · obtain ⟨es, hev, hem⟩ := hemail ee rfl
      obtain ⟨eev⟩ := ee
      dsimp only at hev
      subst hev
      rcases a with _ | aa
      · simp [Contact.from_dict, Contact.init, phoneField, emailField, addressField,
          birthdayField, Bind.bind, Except.bind, Except.map, pure,
          Except.pure, pyTruthy, name_init_stored hname.1 hname.2, isEmpty_false_of_ne (phone_value_ne (hphone pp rfl).1), phone_init_digits (hphone pp rfl).1 (hphone pp rfl).2, isEmpty_false_of_ne (email_stored_ne hem), email_init_stored hem]
      · simp [Contact.from_dict, Contact.init, phoneField, emailField, addressField,
          birthdayField, Bind.bind, Except.bind, Except.map, pure,
          Except.pure, pyTruthy, name_init_stored hname.1 hname.2, isEmpty_false_of_ne (phone_value_ne (hphone pp rfl).1), phone_init_digits (hphone pp rfl).1 (hphone pp rfl).2, isEmpty_false_of_ne (email_stored_ne hem), email_init_stored hem, isEmpty_false_of_ne (haddr aa rfl).2, address_init_stored (haddr aa rfl).1 (haddr aa rfl).2]

theorem from_dict_ok_bday (c : Contact) (dd : PyDate)
    (hbd : c.birthday = some ⟨.date dd⟩) (hdv : dd.valid = true) (hdy : 1000 ≤ dd.year)
    (hname : pyStrip c.name.value = c.name.value ∧ c.name.value ≠ "")
    (hphone : ∀ p, c.phone = some p →
      p.value.toList.length = 10 ∧ p.value.toList.all isDigitChar = true)
    (hemail : ∀ e, c.email = some e →
      ∃ s, e.value = pyLower (pyStrip s) ∧ emailPatternMatch (pyStrip s) = true)
    (haddr : ∀ a, c.address = some a → pyStrip a.value = a.value ∧ a.value ≠ "") :
    Contact.from_dict
      ⟨c.id, c.name.value, c.phone.map Phone.value, c.email.map Email.value,
        c.address.map Address.value, some (formatDMY dd)⟩ = .ok c := by
  obtain ⟨cid, n, p, e, a, b⟩ := c
  dsimp only at hbd hname hphone hemail haddr ⊢
  subst hbd
  rcases p with _ | pp
  · rcases e with _ | ee
    · rcases a with _ | aa
      · simp [Contact.from_dict, Contact.init, phoneField, emailField, addressField,
          birthdayField, Bind.bind, Except.bind, Except.map, pure,
          Except.pure, pyTruthy, name_init_stored hname.1 hname.2, isEmpty_false_of_ne (formatDMY_ne dd), birthday_init_format hdv hdy]
      · simp [Contact.from_dict, Contact.init, phoneField, emailField, addressField,
          birthdayField, Bind.bind, Except.bind, Except.map, pure,
          Except.pure, pyTruthy, name_init_stored hname.1 hname.2, isEmpty_false_of_ne (formatDMY_ne dd), birthday_init_format hdv hdy, isEmpty_false_of_ne (haddr aa rfl).2, address_init_stored (haddr aa rfl).1 (haddr aa rfl).2]
    · obtain ⟨es, hev, hem⟩ := hemail ee rfl
      obtain ⟨eev⟩ := ee
      dsimp only at hev
      subst hev
      rcases a with _ | aa
      · simp [Contact.from_dict, Contact.init, phoneField, emailField, addressField,
          birthdayField, Bind.bind, Except.bind, Except.map, pure,
          Except.pure, pyTruthy, name_init_stored hname.1 hname.2, isEmpty_false_of_ne (formatDMY_ne dd), birthday_init_format hdv hdy, isEmpty_false_of_ne (email_stored_ne hem), email_init_stored hem]
      · simp [Contact.from_dict, Contact.init, phoneField, emailField, addressField,
          birthdayField, Bind.bind, Except.bind, Except.map, pure,
          Except.pure, pyTruthy, name_init_stored hname.1 hname.2, isEmpty_false_of_ne (formatDMY_ne dd), birthday_init_format hdv hdy, isEmpty_false_of_ne (email_stored_ne hem), email_init_stored hem, isEmpty_false_of_ne (haddr aa rfl).2, address_init_stored (haddr aa rfl).1 (haddr aa rfl).2]
  · rcases e with _ | ee
    · rcases a with _ | aa
      · simp [Contact.from_dict, Contact.init, phoneField, emailField, addressField,
          birthdayField, Bind.bind, Except.bind, Except.map, pure,
          Except.pure, pyTruthy, name_init_stored hname.1 hname.2, isEmpty_false_of_ne (formatDMY_ne dd), birthday_init_format hdv hdy, isEmpty_false_of_ne (phone_value_ne (hphone pp rfl).1), phone_init_digits (hphone pp rfl).1 (hphone pp rfl).2]
      · simp [Contact.from_dict, Contact.init, phoneField, emailField, addressField,
          birthdayField, Bind.bind, Except.bind, Except.map, pure,
          Except.pure, pyTruthy, name_init_stored hname.1 hname.2, isEmpty_false_of_ne (formatDMY_ne dd), birthday_init_format hdv hdy, isEmpty_false_of_ne (phone_value_ne (hphone pp rfl).1), phone_init_digits (hphone pp rfl).1 (hphone pp rfl).2, isEmpty_false_of_ne (haddr aa rfl).2, address_init_stored (haddr aa rfl).1 (haddr aa rfl).2]
    · obtain ⟨es, hev, hem⟩ := hemail ee rfl
      obtain ⟨eev⟩ := ee
      dsimp only at hev
      subst hev
      rcases a with _ | aa
      · simp [Contact.from_dict, Contact.init, phoneField, emailField, addressField,
          birthdayField, Bind.bind, Except.bind, Except.map, pure,
          Except.pure, pyTruthy, name_init_stored hname.1 hname.2, isEmpty_false_of_ne (formatDMY_ne dd), birthday_init_format hdv hdy, isEmpty_false_of_ne (phone_value_ne (hphone pp rfl).1), phone_init_digits (hphone pp rfl).1 (hphone pp rfl).2, isEmpty_false_of_ne (email_stored_ne hem), email_init_stored hem]
      · simp [Contact.from_dict, Contact.init, phoneField, emailField, addressField,
          birthdayField, Bind.bind, Except.bind, Except.map, pure,
          Except.pure, pyTruthy, name_init_stored hname.1 hname.2, isEmpty_false_of_ne (formatDMY_ne dd), birthday_init_format hdv hdy, isEmpty_false_of_ne (phone_value_ne (hphone pp rfl).1), phone_init_digits (hphone pp rfl).1 (hphone pp rfl).2, isEmpty_false_of_ne (email_stored_ne hem), email_init_stored hem, isEmpty_false_of_ne (haddr aa rfl).2, address_init_stored (haddr aa rfl).1 (haddr aa rfl).2]

theorem contact_from_to {c : Contact}
    (hname : pyStrip c.name.value = c.name.value ∧ c.name.value ≠ "")
    (hphone : ∀ p, c.phone = some p →
      p.value.toList.length = 10 ∧ p.value.toList.all isDigitChar = true)
    (hemail : ∀ e, c.email = some e →
      ∃ s, e.value = pyLower (pyStrip s) ∧ emailPatternMatch (pyStrip s) = true)
    (haddr : ∀ a, c.address = some a → pyStrip a.value = a.value ∧ a.value ≠ "")
    (hbday : ∀ b, c.birthday = some b →
      ∃ dd, b.value = .date dd ∧ dd.valid = true ∧ 1000 ≤ dd.year) :
    (Contact.to_dict c).bind Contact.from_dict = .ok c := by
  unfold Contact.to_dict
  rcases hb : c.birthday with _ | bb
  · show Contact.from_dict ⟨c.id, c.name.value, c.phone.map Phone.value,
        c.email.map Email.value, c.address.map Address.value, none⟩ = Except.ok c
    exact from_dict_ok_nobday c hb hname hphone hemail haddr
  · obtain ⟨dd, hv, hdv, hdy⟩ := hbday bb hb
    obtain ⟨bv⟩ := bb
    dsimp only at hv
    subst hv
    show Contact.from_dict ⟨c.id, c.name.value, c.phone.map Phone.value,
        c.email.map Email.value, c.address.map Address.value,
        some (formatDMY dd)⟩ = Except.ok c
    exact from_dict_ok_bday c dd hb hdv hdy hname hphone hemail haddr

/-! ## Inversion of `Contact.__init__` -/

theorem phoneField_ok {phone : Option String} {po : Option Phone}
    (h : phoneField phone = .ok po) :
    ∀ q, po = some q → q.value.toList.length = 10 ∧ q.value.toList.all isDigitChar = true := by
  intro q hq
  subst hq
  unfold phoneField at h
  split at h
  · rcases phone with _ | s
    · exact absurd h (by simp [pure, Except.pure])
    · dsimp only at h
      cases hp : Phone.init s with
      | error e => rw [hp] at h; exact absurd h (by simp [Except.map])
      | ok pp =>
        rw [hp] at h
        simp only [Except.map, Except.ok.injEq, Option.some.injEq] at h
        obtain ⟨h1, h2, h3⟩ := phone_init_ok hp
        rw [← h]
        exact ⟨h2, h3⟩
  · exact absurd h (by simp [pure, Except.pure])

theorem emailField_ok {email : Option String} {eo : Option Email}
    (h : emailField email = .ok eo) :
    ∀ q, eo = some q →
      ∃ s, q.value = pyLower (pyStrip s) ∧ emailPatternMatch (pyStrip s) = true := by
  intro q hq
  subst hq
  unfold emailField at h
  split at h
  · rcases email with _ | s
    · exact absurd h (by simp [pure, Except.pure])
    · dsimp only at h
      cases he : Email.init s with
      | error e => rw [he] at h; exact absurd h (by simp [Except.map])
      | ok ee =>
        rw [he] at h
        simp only [Except.map, Except.ok.injEq, Option.some.injEq] at h
        obtain ⟨h1, h2⟩ := email_init_ok he
        exact ⟨s, by rw [← h]; exact h1, h2⟩
  · exact absurd h (by simp [pure, Except.pure])

theorem addressField_ok (address : Option String) :
    ∀ q, addressField address = some q → pyStrip q.value = q.value := by
  intro q hq
  unfold addressField at hq
  split at hq
  · rcases address with _ | s
    · exact absurd hq (by simp)
    · dsimp only at hq
      simp only [Option.some.injEq] at hq
      rcases address_init_cases s with hc | hc
      · rw [hc] at hq
        rw [← hq]
        rfl
      · rw [hc] at hq
        rw [← hq]
        exact pyStrip_of_strip s
  · exact absurd hq (by simp)

theorem birthdayField_ok {birthday : Option String} {bo : Option Birthday}
    (h : birthdayField birthday = .ok bo) :
    ∀ q, bo = some q → ∃ dd, q.value = .date dd ∧ dd.valid = true := by
  intro q hq
  subst hq
  unfold birthdayField at h
  split at h
  · rcases birthday with _ | s
    · exact absurd h (by simp [pure, Except.pure])
    · dsimp only at h
      cases hb : Birthday.init s with
      | error e => rw [hb] at h; exact absurd h (by simp [Except.map])
      | ok bb =>
        rw [hb] at h
        simp only [Except.map, Except.ok.injEq, Option.some.injEq] at h
        obtain ⟨dd, h1, h2⟩ := birthday_init_ok hb
        exact ⟨dd, by rw [← h]; exact h1, h2⟩
  · exact absurd h (by simp [pure, Except.pure])

theorem contact_init_inv {cid : Nat} {name phone email address birthday : Option String}
    {c : Contact} (h : Contact.init cid name phone email address birthday = .ok c) :
    (pyStrip c.name.value = c.name.value ∧ c.name.value ≠ "") ∧
    (∀ p, c.phone = some p →
      p.value.toList.length = 10 ∧ p.value.toList.all isDigitChar = true) ∧
    (∀ e, c.email = some e →
      ∃ s, e.value = pyLower (pyStrip s) ∧ emailPatternMatch (pyStrip s) = true) ∧
    (∀ a, c.address = some a → pyStrip a.value = a.value) ∧
    (∀ b, c.birthday = some b → ∃ dd, b.value = .date dd ∧ dd.valid = true) := by
  unfold Contact.init at h
  cases hn : Name.init name with
  | error e => rw [hn] at h; exact absurd h (by simp [Bind.bind, Except.bind])
  | ok n =>
    rw [hn, exc_bind_ok] at h
    cases hp : phoneField phone with
    | error e => rw [hp] at h; exact absurd h (by simp [Bind.bind, Except.bind])
    | ok po =>
      rw [hp, exc_bind_ok] at h
      cases he : emailField email with
      | error e => rw [he] at h; exact absurd h (by simp [Bind.bind, Except.bind])
      | ok eo =>
        rw [he, exc_bind_ok] at h
        cases hb : birthdayField birthday with
        | error e => rw [hb] at h; exact absurd h (by simp [Bind.bind, Except.bind])
        | ok bo =>
          rw [hb, exc_bind_ok] at h
          have hc : c = ⟨cid, n, po, eo, addressField address, bo⟩ := by
            have : Except.ok (⟨cid, n, po, eo, addressField address, bo⟩ : Contact)
                = Except.ok c := h
            simpa using this.symm
          subst hc
          refine ⟨name_init_ok hn, phoneField_ok hp, emailField_ok he,
            addressField_ok address, birthdayField_ok hb⟩

/-! ## Note round trip -/

theorem map_eq_self {α : Type} (l : List α) (f : α → α) (h : ∀ x ∈ l, f x = x) :
    l.map f = l := by
  induction l with
  | nil => rfl
  | cons a t ih =>
    simp only [List.map_cons, h a (List.mem_cons_self a t)]
    rw [ih (fun x hx => h x (List.mem_cons_of_mem a hx))]

theorem notetext_init_ok {s : String} {t : NoteText} (h : NoteText.init s = .ok t) :
    pyStrip t.content = t.content ∧ t.content ≠ "" := by
  unfold NoteText.init at h
  split at h
  · exact absurd h (by simp)
  · rename_i hne
    simp only [Except.ok.injEq] at h
    have hv : t.content = pyStrip s := by rw [← h]
    constructor
    · rw [hv, pyStrip_of_strip]
    · rw [hv]
      intro he
      rw [he] at hne
      exact hne rfl

theorem notetext_init_stored {s : String} (hs : pyStrip s = s) (hne : s ≠ "") :
    NoteText.init s = .ok ⟨s⟩ := by
  unfold NoteText.init
  rw [hs, isEmpty_false_of_ne hne]
  simp

theorem note_from_to (nid : Nat) (t : NoteText) (tags : Option (List NoteTag))
    (ht : pyStrip t.content = t.content ∧ t.content ≠ "")
    (htags : ∀ tg ∈ (Note.init nid t tags).tags, pyStrip tg.name = tg.name) :
    Note.from_dict (Note.to_dict (Note.init nid t tags)) = .ok (Note.init nid t tags) := by
  unfold Note.from_dict Note.to_dict
  rw [show (Note.init nid t tags).text = t from rfl]
  rw [notetext_init_stored ht.1 ht.2]
  have htg : ((Note.init nid t tags).tags.map NoteTag.name).map NoteTag.init
      = (Note.init nid t tags).tags := by
    rw [List.map_map]
    apply map_eq_self
    intro tg hin
    show NoteTag.init tg.name = tg
    unfold NoteTag.init
    rw [htags tg hin]
  rw [htg]
  show Except.ok (Note.init nid ⟨t.content⟩ (some (Note.init nid t tags).tags))
      = Except.ok (Note.init nid t tags)
  unfold Note.init
  rfl

/-! ## Claim C7 -/

/-- C7 (corrected, counterexample): the round-trip claim fails as stated.  A
contact constructed with the whitespace-only address `" "` stores the empty
`Address`; `to_dict` renders it as `""`, which is falsy, so `from_dict`
reconstructs the contact with the address absent — the field values are not
equal. -/
theorem contact_roundtrip_counterexample :
    Contact.init 7 (some "Ann") none none (some " ") none
        = .ok ⟨7, ⟨"Ann"⟩, none, none, some ⟨""⟩, none⟩ ∧
    (Contact.to_dict (⟨7, ⟨"Ann"⟩, none, none, some ⟨""⟩, none⟩ : Contact)).bind
        Contact.from_dict = .ok ⟨7, ⟨"Ann"⟩, none, none, none, none⟩ ∧
    some (⟨""⟩ : Address) ≠ (none : Option Address) := by
  refine ⟨rfl, rfl, by simp⟩

/-- C7 (amended): serializing and reconstructing a successfully constructed
Contact or Note yields an entity with equal field values, provided that any
present address value of the contact is non-empty (a whitespace-only address
argument stores an empty address that deserializes to an absent one) and that
the birthday year is at least 1000 (`%Y` renders smaller years without padding,
which the four-digit parser rejects); notes round-trip unconditionally. -/
theorem roundtrip_serialization_amended :
    (∀ (cid : Nat) (name phone email address birthday : Option String) (c : Contact),
      Contact.init cid name phone email address birthday = .ok c →
      (∀ a, c.address = some a → a.value ≠ "") →
      (∀ b dd, c.birthday = some b → b.value = .date dd → 1000 ≤ dd.year) →
      (Contact.to_dict c).bind Contact.from_dict = .ok c) ∧
    (∀ (nid : Nat) (t : NoteText) (tags : Option (List NoteTag)) (src : String),
      NoteText.init src = .ok t →
      (∀ tg ∈ (Note.init nid t tags).tags, ∃ s2, tg = NoteTag.init s2) →
      Note.from_dict (Note.to_dict (Note.init nid t tags))
        = .ok (Note.init nid t tags)) := by
  constructor
  · intro cid name phone email address birthday c h haddr hyear
    obtain ⟨hname, hph, hem, had, hbd⟩ := contact_init_inv h
    apply contact_from_to hname hph hem
    · intro a ha
      exact ⟨had a ha, haddr a ha⟩
    · intro b hb
      obtain ⟨dd, h1, h2⟩ := hbd b hb
      exact ⟨dd, h1, h2, hyear b dd hb h1⟩
  · intro nid t tags src hsrc htags
    apply note_from_to nid t tags (notetext_init_ok hsrc)
    intro tg hin
    obtain ⟨s2, hs2⟩ := htags tg hin
    rw [hs2]
    show pyStrip (pyStrip s2) = pyStrip s2
    exact pyStrip_of_strip s2

/-- Witness: the amended round trip evaluated on a concrete contact carrying
every field and on a concrete note. -/
theorem roundtrip_serialization_amended_witness :
    (Contact.to_dict (⟨7, ⟨"Ann"⟩, some ⟨"0501234567"⟩, some ⟨"ann@example.com"⟩,
        some ⟨"Kyiv 12"⟩, some ⟨.date ⟨2000, 2, 29⟩⟩⟩ : Contact)).bind Contact.from_dict
      = .ok ⟨7, ⟨"Ann"⟩, some ⟨"0501234567"⟩, some ⟨"ann@example.com"⟩,
        some ⟨"Kyiv 12"⟩, some ⟨.date ⟨2000, 2, 29⟩⟩⟩ ∧
    Note.from_dict (Note.to_dict (Note.init 3 ⟨"buy milk"⟩ (some [⟨"Work"⟩])))
      = .ok (Note.init 3 ⟨"buy milk"⟩ (some [⟨"Work"⟩])) := by
  constructor
  · exact roundtrip_serialization_amended.1 7 (some "Ann") (some "0501234567")
      (some "Ann@Example.COM") (some " Kyiv 12 ") (some "29.02.2000")
      ⟨7, ⟨"Ann"⟩, some ⟨"0501234567"⟩, some ⟨"ann@example.com"⟩,
        some ⟨"Kyiv 12"⟩, some ⟨.date ⟨2000, 2, 29⟩⟩⟩
      rfl
      (by
        intro a ha
        simp only [Option.some.injEq] at ha
        rw [← ha]
        decide)
      (by
        intro b dd hb hv
        simp only [Option.some.injEq] at hb
        rw [← hb] at hv
        injection hv with h2
        rw [← h2]
        decide)
  · exact roundtrip_serialization_amended.2 3 ⟨"buy milk"⟩ (some [⟨"Work"⟩]) "buy milk"
      rfl
      (by
        intro tg hin
        simp [Note.init] at hin
        exact ⟨"Work", by rw [hin]; rfl⟩)

/-! ## Claim C2 -/

/-- C2 (code bug): `patch` writes the supplied phone string straight into the
wrapper's `value` attribute with no re-validation, contradicting its own
docstring ("Raises ValidationError: If any field fails validation").  At the
failing input — an existing contact with phone `"0501234567"` patched with the
malformed phone `"abc"` — the call succeeds, stores `"abc"` and persists, while
`is_phone` rejects `"abc"`. -/
theorem patch_no_revalidation :
    contactsPatch [⟨7, ⟨"Ann"⟩, some ⟨"0501234567"⟩, none, none, none⟩] 7
        { phone := some "abc" }
      = (.ok ⟨7, ⟨"Ann"⟩, some ⟨"abc"⟩, none, none, none⟩,
         [⟨7, ⟨"Ann"⟩, some ⟨"abc"⟩, none, none, none⟩], true) ∧
    is_phone "abc" = .error (.invalidPhone "abc") :=
  ⟨rfl, rfl⟩

/-! ## Claim C3 -/

/-- Follows the spec wording for the domain tail: a TLD of 2 to 6 letters
(`src/config/constants.py` documents the pattern as "ending with 2-6 letter
TLD"). -/
def domainTailSpec (r : List Char) : Bool :=
  let rev := r.reverse
  let tld := rev.takeWhile Char.isAlpha
  match rev.dropWhile Char.isAlpha with
  | [] => false
  | d :: p =>
    d == '.' && !p.isEmpty && 2 ≤ tld.length && tld.length ≤ 6 && p.all domainChar

/-- Follows the spec wording: `local@domain.tld` with a TLD of 2 to 6
letters. -/
def emailSpecMatch (s : String) : Bool :=
  let cs := s.toList
  let loc := cs.takeWhile (fun c => c != '@')
  match cs.dropWhile (fun c => c != '@') with
  | [] => false
  | _ :: r => !loc.isEmpty && loc.all localChar && domainTailSpec r

/-- C3 (code bug): the implemented regex ends in `[a-zA-Z]{2,}` — any TLD of
two or more letters — while both the spec and the comment above the pattern in
`src/config/constants.py` require 2 to 6 letters.  At the failing input, a
seven-letter TLD, `is_email` accepts while the documented 2-6 letter rule
rejects. -/
theorem email_tld_unbounded :
    is_email "user@example.abcdefg" = .ok true ∧
    emailSpecMatch "user@example.abcdefg" = false :=
  ⟨rfl, rfl⟩

/-! ## Claim C6 -/

/-- C6 (confirmed): patching an id that is not in the collection raises
`ContactNotFoundError` before any mutation: the collection is returned exactly
as it was and no save is performed. -/
theorem patch_missing_id_not_found (contacts : List Contact) (cid : Nat)
    (u : PatchUpdates) (h : ∀ c ∈ contacts, c.id ≠ cid) :
    contactsPatch contacts cid u = (.error (.contactNotFound cid), contacts, false) := by
  unfold contactsPatch findById
  rw [List.find?_eq_none.mpr (fun c hc => by
    simp only [beq_iff_eq]
    exact h c hc)]

/-- Witness: patching id 2 in a collection holding only id 1. -/
theorem patch_missing_id_not_found_witness :
    contactsPatch [⟨1, ⟨"Ann"⟩, none, none, none, none⟩] 2 {}
      = (.error (.contactNotFound 2), [⟨1, ⟨"Ann"⟩, none, none, none, none⟩], false) :=
  patch_missing_id_not_found _ 2 {} (by decide)

/-! ## Claim C9 -/

/-- C9 (confirmed): `patch` on an existing contact dereferences the field
wrapper before writing, so a non-empty phone update with the phone field
absent, a non-empty email update with the email field absent, any address
update with the address field absent, and any birthday update with the
birthday field absent all raise `AttributeError` instead of setting the
field. -/
theorem patch_absent_fields_attribute_error (contacts : List Contact) (cid : Nat)
    (c : Contact) (hf : findById contacts cid = some c) :
    (∀ v : String, v ≠ "" → c.phone = none →
      (contactsPatch contacts cid { phone := some v }).1
        = .error (.attributeError "NoneType object has no attribute value")) ∧
    (∀ v : String, v ≠ "" → c.email = none →
      (contactsPatch contacts cid { email := some v }).1
        = .error (.attributeError "NoneType object has no attribute value")) ∧
    (∀ v : String, c.address = none →
      (contactsPatch contacts cid { address := some v }).1
        = .error (.attributeError "NoneType object has no attribute value")) ∧
    (∀ v : String, c.birthday = none →
      (contactsPatch contacts cid { birthday := some v }).1
        = .error (.attributeError "NoneType object has no attribute value")) := by
  refine ⟨?_, ?_, ?_, ?_⟩
  · intro v hv hnone
    unfold contactsPatch
    rw [hf]
    simp [patchFields, isEmpty_false_of_ne hv, hnone, Bind.bind, Except.bind, pure, Except.pure]
  · intro v hv hnone
    unfold contactsPatch
    rw [hf]
    simp [patchFields, isEmpty_false_of_ne hv, hnone, Bind.bind, Except.bind, pure, Except.pure]
  · intro v hnone
    unfold contactsPatch
    rw [hf]
    simp [patchFields, hnone, Bind.bind, Except.bind, pure, Except.pure]
  · intro v hnone
    unfold contactsPatch
    rw [hf]
    rcases he : v.isEmpty with _ | _ <;>
      simp [patchFields, hnone, he, Bind.bind, Except.bind, pure, Except.pure]

/-- Witness: all four absent-field patches on a contact with only a name. -/
theorem patch_absent_fields_witness :
    (contactsPatch [⟨7, ⟨"Ann"⟩, none, none, none, none⟩] 7 { phone := some "050" }).1
      = .error (.attributeError "NoneType object has no attribute value") ∧
    (contactsPatch [⟨7, ⟨"Ann"⟩, none, none, none, none⟩] 7 { email := some "a@b.co" }).1
      = .error (.attributeError "NoneType object has no attribute value") ∧
    (contactsPatch [⟨7, ⟨"Ann"⟩, none, none, none, none⟩] 7 { address := some "Kyiv" }).1
      = .error (.attributeError "NoneType object has no attribute value") ∧
    (contactsPatch [⟨7, ⟨"Ann"⟩, none, none, none, none⟩] 7 { birthday := some "x" }).1
      = .error (.attributeError "NoneType object has no attribute value") := by
  have h := patch_absent_fields_attribute_error
    [⟨7, ⟨"Ann"⟩, none, none, none, none⟩] 7 ⟨7, ⟨"Ann"⟩, none, none, none, none⟩ rfl
  exact ⟨h.1 "050" (by decide) rfl, h.2.1 "a@b.co" (by decide) rfl,
    h.2.2.1 "Kyiv" rfl, h.2.2.2 "x" rfl⟩

/-! ## Claim C5 -/

/-- C5 (confirmed): `add` fails with `DuplicateContactError` and performs no
append whenever some contact in the collection carries the new name up to case
and surrounding whitespace (stored names are already stripped, and the
comparison lower-cases both sides after stripping the incoming name); in
particular adding `"Ann"` and then `"ann "` fails with the duplicate error. -/
theorem add_duplicate_name_rejected :
    (∀ (contacts : List Contact) (freshId : Nat) (nm : String)
        (phone email address birthday : Option String) (c : Contact),
      c ∈ contacts → pyLower c.name.value = pyLower (pyStrip nm) →
      contactsAdd contacts freshId (some nm) phone email address birthday
        = .error (.duplicateContact (pyStrip nm))) ∧
    contactsAdd [] 0 (some "Ann") none none none none
      = .ok ([⟨0, ⟨"Ann"⟩, none, none, none, none⟩],
          ⟨0, ⟨"Ann"⟩, none, none, none, none⟩) ∧
    contactsAdd [⟨0, ⟨"Ann"⟩, none, none, none, none⟩] 1 (some "ann ") none none none none
      = .error (.duplicateContact "ann") := by
  refine ⟨?_, rfl, rfl⟩
  intro contacts freshId nm phone email address birthday c hmem heq
  unfold contactsAdd
  dsimp only
  cases hfind : findByName contacts (pyStrip nm) with
  | none =>
    exact absurd (List.find?_eq_none.mp hfind c hmem) (by
      simp only [beq_iff_eq, not_not]
      exact heq)
  | some ex =>
    rfl

/-- Witness: the duplicate check fires for a differently-cased, padded name. -/
theorem add_duplicate_name_rejected_witness :
    contactsAdd [⟨0, ⟨"Ann"⟩, none, none, none, none⟩] 5 (some " ANN ")
        none none none none = .error (.duplicateContact "ANN") :=
  add_duplicate_name_rejected.1 _ 5 " ANN " none none none none
    ⟨0, ⟨"Ann"⟩, none, none, none, none⟩ (by simp) (by rfl)

/-! ## Claim C1 -/

/-- C1 (corrected, counterexample): the claim says a contact whose phone field
is absent does not match when a phone filter is supplied.  The code's phone
criterion is guarded by `contact.phone and ...`, so for a contact with no
phone the guard short-circuits, the match flag stays true, and the contact is
returned: searching the one-contact collection by phone `"050"` returns the
phoneless contact instead of the empty list the claim requires. -/
theorem search_absent_phone_counterexample :
    contactsSearch [⟨0, ⟨"Ann"⟩, none, none, none, none⟩] none none (some "050") none
        = [⟨0, ⟨"Ann"⟩, none, none, none, none⟩] ∧
    (⟨0, ⟨"Ann"⟩, none, none, none, none⟩ : Contact).phone = none :=
  ⟨rfl, rfl⟩

/-- C1 (amended): for a search call without a general query and with at least
one specific filter supplied, a contact is in the result if and only if every
supplied filter is satisfied, where the phone (resp. email) criterion only
constrains contacts whose phone (resp. email) field is present — a contact
with that field absent passes the filter vacuously; the phone filter string is
sought verbatim in the lower-cased stored phone (which coincides with
case-insensitive matching for the digit-only values the validator stores).
When none of query/name/phone/email is supplied the result is empty. -/
theorem search_specific_filters (contacts : List Contact)
    (name phone email : Option String) (c : Contact)
    (h : anyFilterSupplied name phone email = true) :
    (c ∈ contactsSearch contacts none name phone email ↔
      c ∈ contacts ∧
        (∀ f, name = some f → f ≠ "" →
          strContains (pyLower c.name.value) (pyLower f) = true) ∧
        (∀ f p, phone = some f → f ≠ "" → c.phone = some p →
          strContains (pyLower p.value) f = true) ∧
        (∀ f e, email = some f → f ≠ "" → c.email = some e →
          strContains (pyLower e.value) (pyLower f) = true)) ∧
    (∀ n2 p2 e2, anyFilterSupplied n2 p2 e2 = false →
      contactsSearch contacts none n2 p2 e2 = []) := by
  constructor
  · rw [contactsSearch, List.mem_filter]
    constructor
    · rintro ⟨hmem, hinc⟩
      refine ⟨hmem, ?_, ?_, ?_⟩
      · intro f hf hfne
        subst hf
        simp only [searchIncludes, pyTruthy, Bool.false_and, Bool.false_or,
          Bool.and_eq_true] at hinc
        have hn := hinc.1.1.1
        simp only [nameFilterFails, isEmpty_false_of_ne hfne] at hn
        simpa using hn
      · intro f p hf hfne hp
        subst hf
        simp only [searchIncludes, pyTruthy, Bool.false_and, Bool.false_or,
          Bool.and_eq_true] at hinc
        have hn := hinc.1.1.2
        simp only [phoneFilterFails, hp, isEmpty_false_of_ne hfne] at hn
        simpa using hn
      · intro f e hf hfne he
        subst hf
        simp only [searchIncludes, pyTruthy, Bool.false_and, Bool.false_or,
          Bool.and_eq_true] at hinc
        have hn := hinc.1.2
        simp only [emailFilterFails, he, isEmpty_false_of_ne hfne] at hn
        simpa using hn
    · rintro ⟨hmem, hname, hphone, hemail⟩
      refine ⟨hmem, ?_⟩
      simp only [searchIncludes, pyTruthy, Bool.false_and, Bool.false_or,
        Bool.and_eq_true]
      refine ⟨⟨⟨?_, ?_⟩, ?_⟩, h⟩
      · rcases name with _ | f
        · rfl
        · rcases hfe : f.isEmpty with _ | _
          · have hne : f ≠ "" := fun he => by rw [he] at hfe; exact absurd hfe (by decide)
            simp only [nameFilterFails, hfe]
            simpa using hname f rfl hne
          · simp [nameFilterFails, hfe]
      · rcases phone with _ | f
        · rfl
        · rcases hcp : c.phone with _ | p
          · simp [phoneFilterFails, hcp]
          · rcases hfe : f.isEmpty with _ | _
            · have hne : f ≠ "" := fun he => by rw [he] at hfe; exact absurd hfe (by decide)
              simp only [phoneFilterFails, hcp, hfe]
              simpa using hphone f p rfl hne hcp
            · simp [phoneFilterFails, hcp, hfe]
      · rcases email with _ | f
        · rfl
        · rcases hce : c.email with _ | e
          · simp [emailFilterFails, hce]
          · rcases hfe : f.isEmpty with _ | _
            · have hne : f ≠ "" := fun he => by rw [he] at hfe; exact absurd hfe (by decide)
              simp only [emailFilterFails, hce, hfe]
              simpa using hemail f e rfl hne hce
            · simp [emailFilterFails, hce, hfe]
  · intro n2 p2 e2 hnone
    rw [contactsSearch, List.filter_eq_nil_iff]
    intro a _
    simp [searchIncludes, pyTruthy, hnone]

/-- Witness: the amended search specification evaluated on a one-contact
collection with a name filter, plus the empty result when no filter is
supplied. -/
theorem search_specific_filters_witness :
    (⟨0, ⟨"Ann"⟩, none, none, none, none⟩ : Contact)
      ∈ contactsSearch [⟨0, ⟨"Ann"⟩, none, none, none, none⟩] none (some "an") none none ∧
    contactsSearch [⟨0, ⟨"Ann"⟩, none, none, none, none⟩] none none none none = [] := by
  have h := search_specific_filters [⟨0, ⟨"Ann"⟩, none, none, none, none⟩]
    (some "an") none none ⟨0, ⟨"Ann"⟩, none, none, none, none⟩ (by decide)
  constructor
  · refine h.1.mpr ⟨by simp, ?_, ?_, ?_⟩
    · intro f hf hfne
      cases hf
      decide
    · intro f p _ _ hp
      cases hp
    · intro f e _ _ he
      cases he
  · exact h.2 none none none rfl

/-! ## Claim C8 -/

theorem tags_pred_iff (n : Note) (tags : List String) :
    (n.tags.any (fun t => ((tags.map pyLower).contains (pyLower t.name)))) = true ↔
      ∃ t ∈ n.tags, ∃ q ∈ tags, pyLower t.name = pyLower q := by
  rw [List.any_eq_true]
  constructor
  · rintro ⟨t, ht, hc⟩
    rw [List.elem_iff, List.mem_map] at hc
    obtain ⟨q, hq, hql⟩ := hc
    exact ⟨t, ht, q, hq, hql.symm⟩
  · rintro ⟨t, ht, q, hq, hql⟩
    refine ⟨t, ht, ?_⟩
    rw [List.elem_iff, List.mem_map]
    exact ⟨q, hq, hql.symm⟩

/-- C8 (confirmed): `find_by_tags` with a tags argument keeps exactly the notes
whose tag set intersects the query tag set case-insensitively (OR across query
tags); a text argument further restricts the result to notes whose text
contains the case-insensitive substring (AND of the two filters); with neither
argument it returns all notes. -/
theorem notes_find_by_tags_spec (notes : List Note) (tags : List String)
    (text : Option String) (n : Note) (h : tags ≠ []) :
    (n ∈ findByTags notes (some tags) text ↔
      n ∈ notes ∧
        (∃ t ∈ n.tags, ∃ q ∈ tags, pyLower t.name = pyLower q) ∧
        (∀ s, text = some s → s ≠ "" →
          strContains (pyLower n.text.content) (pyLower s) = true)) ∧
    findByTags notes none none = notes := by
  have htags : pyTruthyTags (some tags) = true := by
    simp only [pyTruthyTags, Bool.not_eq_true']
    rw [← Bool.not_eq_true]
    intro he
    exact h (List.isEmpty_iff.mp he)
  constructor
  · unfold findByTags
    rw [htags]
    simp only [if_true]
    rcases text with _ | s
    · simp only [pyTruthy, Bool.false_eq_true, if_false, List.mem_filter, tags_pred_iff]
      constructor
      · rintro ⟨hm, hp⟩
        exact ⟨hm, hp, by intro s hs; cases hs⟩
      · rintro ⟨hm, hp, _⟩
        exact ⟨hm, hp⟩
    · rcases hse : s.isEmpty with _ | _
      · have hne : s ≠ "" := fun he => by rw [he] at hse; exact absurd hse (by decide)
        simp only [pyTruthy, hse, Bool.not_false, if_true, List.mem_filter, tags_pred_iff]
        constructor
        · rintro ⟨⟨hm, hp⟩, hc⟩
          refine ⟨hm, hp, ?_⟩
          intro s2 hs2 _
          rw [Option.some.injEq] at hs2
          rw [← hs2]
          exact hc
        · rintro ⟨hm, hp, hc⟩
          exact ⟨⟨hm, hp⟩, hc s rfl hne⟩
      · have hseq : s = "" := (String.isEmpty_iff s).mp hse
        simp only [pyTruthy, hse, Bool.not_true, Bool.false_eq_true, if_false,
          List.mem_filter, tags_pred_iff]
        constructor
        · rintro ⟨hm, hp⟩
          refine ⟨hm, hp, ?_⟩
          intro s2 hs2 hs2ne
          rw [Option.some.injEq] at hs2
          exact absurd (hs2 ▸ hseq) hs2ne
        · rintro ⟨hm, hp, _⟩
          exact ⟨hm, hp⟩
  · rfl

/-- Witness: the tag filter matching `"Work"` case-insensitively against query
tag `"work"`, with the second note excluded. -/
theorem notes_find_by_tags_witness :
    (⟨0, ⟨"buy milk"⟩, [⟨"Work"⟩]⟩ : Note)
      ∈ findByTags [⟨0, ⟨"buy milk"⟩, [⟨"Work"⟩]⟩, ⟨1, ⟨"call"⟩, [⟨"home"⟩]⟩]
          (some ["work"]) none ∧
    findByTags [⟨0, ⟨"buy milk"⟩, [⟨"Work"⟩]⟩, ⟨1, ⟨"call"⟩, [⟨"home"⟩]⟩] none none
      = [⟨0, ⟨"buy milk"⟩, [⟨"Work"⟩]⟩, ⟨1, ⟨"call"⟩, [⟨"home"⟩]⟩] := by
  have h := notes_find_by_tags_spec
    [⟨0, ⟨"buy milk"⟩, [⟨"Work"⟩]⟩, ⟨1, ⟨"call"⟩, [⟨"home"⟩]⟩] ["work"] none
    ⟨0, ⟨"buy milk"⟩, [⟨"Work"⟩]⟩ (by simp)
  constructor
  · refine h.1.mpr ⟨by simp, ⟨⟨"Work"⟩, by simp, "work", by simp, by decide⟩, ?_⟩
    intro s hs
    cases hs
  · exact h.2

/-! ## Claim C4 -/

theorem daysInMonth_feb_le (y : Nat) : daysInMonth y 2 ≤ 29 := by
  unfold daysInMonth
  rw [if_pos rfl]
  by_cases hl : isLeap y
  · rw [if_pos hl]
  · rw [if_neg hl]
    omega

theorem daysInMonth_not_feb {m : Nat} (hm : m ≠ 2) (y y2 : Nat) :
    daysInMonth y m = daysInMonth y2 m := by
  unfold daysInMonth
  rw [if_neg hm, if_neg hm]

theorem birthdayThisYear_eq (b : PyDate) (y : Nat) (hv : b.valid = true) :
    (match b.replaceYear y with
     | some d => d
     | none => (⟨y, 2, 28⟩ : PyDate)) = occurrenceInYear b y := by
  rw [pyDate_valid_iff] at hv
  unfold PyDate.replaceYear occurrenceInYear
  by_cases hcond : b.month = 2 ∧ b.day = 29 ∧ isLeap y = false
  · obtain ⟨hm, hd, hl⟩ := hcond
    have hno : ¬ b.day ≤ daysInMonth y b.month := by
      rw [hm, hd]
      unfold daysInMonth
      rw [if_pos rfl, if_neg (by rw [hl]; exact Bool.false_ne_true)]
      omega
    rw [if_neg hno]
    rw [if_pos ⟨hm, hd, hl⟩]
  · have hyes : b.day ≤ daysInMonth y b.month := by
      by_cases hm : b.month = 2
      · have hle29 : b.day ≤ 29 := by
          have := hv.2.2.2.2.2
          rw [hm] at this
          exact le_trans this (daysInMonth_feb_le b.year)
        rw [hm]
        unfold daysInMonth
        rw [if_pos rfl]
        by_cases hl : isLeap y
        · rw [if_pos hl]; omega
        · rw [if_neg hl]
          have hd29 : b.day ≠ 29 := by
            intro hd
            exact hcond ⟨hm, hd, Bool.eq_false_iff.mpr hl⟩
          omega
      · rw [← daysInMonth_not_feb hm b.year y]
        exact hv.2.2.2.2.2
    rw [if_pos hyes]
    rw [if_neg hcond]

/-- C4 (confirmed): the birthday-lookahead check agrees with the spec's
description — it includes a contact exactly when the day offset of the next
occurrence of the birthday's month/day (computed in the current year, advanced
to the next year if already passed, with Feb 29 mapped to Feb 28 of a non-leap
target year) lies in `[0, daysAhead]`; and the concrete Feb 29 example — today
Feb 27 of the non-leap year 2025 with `daysAhead = 1` — is included. -/
theorem birthday_lookahead_window (b today : PyDate) (days_ahead : Int)
    (hb : b.valid = true) (hd : 0 ≤ days_ahead) :
    (is_birthday_coming b today days_ahead = true ↔
      0 ≤ ((nextOccurrence b today).toordinal : Int) - (today.toordinal : Int) ∧
        ((nextOccurrence b today).toordinal : Int) - (today.toordinal : Int)
          ≤ days_ahead) ∧
    is_birthday_coming ⟨2000, 2, 29⟩ ⟨2025, 2, 27⟩ 1 = true := by
  constructor
  · simp only [is_birthday_coming, nextOccurrence]
    rw [birthdayThisYear_eq b today.year hb, birthdayThisYear_eq b (today.year + 1) hb]
    simp [Bool.and_eq_true, decide_eq_true_iff]
  · decide

/-- Witness: the Feb 29 birthday evaluated on Feb 27, 2025 with a one-day
window, via the lookahead theorem. -/
theorem birthday_lookahead_window_witness :
    (⟨2000, 2, 29⟩ : PyDate).valid = true ∧
    is_birthday_coming ⟨2000, 2, 29⟩ ⟨2025, 2, 27⟩ 1 = true :=
  ⟨by decide,
    (birthday_lookahead_window ⟨2000, 2, 29⟩ ⟨2025, 2, 27⟩ 1 (by decide) (by decide)).2⟩

/-! ## Claim C10 -/

theorem mem_stripList {c : Char} {l : List Char} (h : c ∈ stripList l) : c ∈ l := by
  unfold stripList at h
  rw [List.mem_reverse] at h
  have h1 := (List.dropWhile_sublist isSpaceChar).subset h
  rw [List.mem_reverse] at h1
  exact (List.dropWhile_sublist isSpaceChar).subset h1

theorem strptimeDMY_no_dot {s : String} (h : s.toList.contains '.' = false) :
    strptimeDMY (pyStrip s) = none := by
  unfold strptimeDMY
  have hnd : ∀ c ∈ (pyStrip s).toList, (c == '.') = false := by
    intro c hc
    rw [beq_eq_false_iff_ne]
    intro he
    subst he
    have hcin : ('.' : Char) ∈ s.toList := mem_stripList hc
    rw [← List.elem_iff] at hcin
    have hc2 : s.toList.contains '.' = true := hcin
    rw [hc2] at h
    exact absurd h (by decide)
  rw [splitOnSep_no_sep '.' _ hnd]

theorem contains_ne_empty {s : String} {c : Char} (h : s.toList.contains c = true) :
    s ≠ "" := by
  intro he
  subst he
  have h0 : (("" : String).toList.contains c) = false := rfl
  rw [h0] at h
  exact Bool.noConfusion h

theorem birthday_init_parse {s : String} {d : PyDate}
    (h : Birthday.init s = .ok ⟨.date d⟩) :
    (match strptimeDMY (pyStrip s) with
     | some x => some x
     | none =>
       match strptimeYMD (pyStrip s) with
       | some x => some x
       | none =>
         match strptimeDMYSlash (pyStrip s) with
         | some x => some x
         | none => strptimeMDYSlash (pyStrip s)) = some d ∧ s ≠ "" := by
  unfold Birthday.init at h
  split at h
  · rename_i hdot
    refine ⟨?_, contains_ne_empty hdot⟩
    split at h
    · rename_i d2 hd2
      simp only [Except.ok.injEq, Birthday.mk.injEq, BirthdayValue.date.injEq] at h
      exact congrArg some h
    · exact absurd h (by simp)
  · split at h
    · rename_i hdot hdash
      have hdmy := strptimeDMY_no_dot (eq_false_of_ne_true hdot)
      refine ⟨?_, contains_ne_empty hdash⟩
      split at h
      · rename_i d2 hd2
        simp only [Except.ok.injEq, Birthday.mk.injEq, BirthdayValue.date.injEq] at h
        rw [hdmy]
        show some d2 = some d
        exact congrArg some h
      · exact absurd h (by simp)
    · exact absurd h (by simp)

/-- C10 (confirmed): `Contact.__init__` applies no future-date or maximum-age
check to the birthday — the `Birthday` field parses the string itself and
never calls the `parse_birthday` validator (the embedded `Contact.init` and
`birthdayField` contain no reference to `parse_birthday` and take no current
date).  Every string accepted by the `Birthday` field — in particular the
`DD.MM.YYYY` rendering of any valid date with a four-digit year, arbitrarily
far in the future or past — yields a successfully constructed contact, while
`parse_birthday` on the same string fails for a date strictly after today or
before Jan 1 of `today.year - 150`. -/
theorem construction_skips_birthday_range_checks :
    (∀ (cid : Nat) (s : String) (d : PyDate), Birthday.init s = .ok ⟨.date d⟩ →
      Contact.init cid (some "Ann") none none none (some s)
        = .ok ⟨cid, ⟨"Ann"⟩, none, none, none, some ⟨.date d⟩⟩) ∧
    (∀ d : PyDate, d.valid = true → 1000 ≤ d.year →
      Birthday.init (formatDMY d) = .ok ⟨.date d⟩) ∧
    (∀ (today : PyDate) (s : String) (d : PyDate), Birthday.init s = .ok ⟨.date d⟩ →
      PyDate.lt today d = true →
      parse_birthday today s
        = .error (.invalidBirthday s "Birthday cannot be in the future")) ∧
    (∀ (today : PyDate) (s : String) (d : PyDate), Birthday.init s = .ok ⟨.date d⟩ →
      PyDate.lt today d = false → PyDate.lt d ⟨today.year - 150, 1, 1⟩ = true →
      parse_birthday today s
        = .error (.invalidBirthday s "Birthday cannot be more than 150 years ago")) := by
  refine ⟨?_, ?_, ?_, ?_⟩
  · intro cid s d h
    have hsne := (birthday_init_parse h).2
    simp [Contact.init, phoneField, emailField, addressField, birthdayField, pyTruthy,
      isEmpty_false_of_ne hsne, h, Bind.bind, Except.bind, Except.map, pure, Except.pure,
      show Name.init (some "Ann") = Except.ok ⟨"Ann"⟩ from rfl]
  · intro d hv hy
    exact birthday_init_format hv hy
  · intro today s d h hlt
    obtain ⟨hchain, hsne⟩ := birthday_init_parse h
    simp only [parse_birthday]
    rw [isEmpty_false_of_ne hsne]
    simp only [Bool.false_eq_true, if_false]
    rw [hchain]
    simp only [hlt, if_true]
  · intro today s d h hlt hold
    obtain ⟨hchain, hsne⟩ := birthday_init_parse h
    simp only [parse_birthday]
    rw [isEmpty_false_of_ne hsne]
    simp only [Bool.false_eq_true, if_false]
    rw [hchain]
    simp only [hlt, Bool.false_eq_true, if_false, hold, if_true]

/-- Witness: a contact born `01.01.3000` — a future date — constructs
successfully, while `parse_birthday` rejects the same string on 2026-10-12. -/
theorem construction_skips_birthday_range_checks_witness :
    Contact.init 0 (some "Ann") none none none (some "01.01.3000")
      = .ok ⟨0, ⟨"Ann"⟩, none, none, none, some ⟨.date ⟨3000, 1, 1⟩⟩⟩ ∧
    parse_birthday ⟨2026, 10, 12⟩ "01.01.3000"
      = .error (.invalidBirthday "01.01.3000" "Birthday cannot be in the future") :=
  ⟨construction_skips_birthday_range_checks.1 0 "01.01.3000" ⟨3000, 1, 1⟩ rfl,
    construction_skips_birthday_range_checks.2.2.1 ⟨2026, 10, 12⟩ "01.01.3000"
      ⟨3000, 1, 1⟩ rfl rfl⟩
